import Mathlib

/-!
Verification of the `jmp` message codec and framed-socket layer (src/index.js,
current variant: `Message`, `Message._decode`, `_decode`, `Message.prototype._encode`,
`Message.prototype.respond`, `Socket.prototype.on/once/removeListener/removeAllListeners`).

Modelling conventions, shared by all definitions below:

* Text (JS strings and the decoded content of buffers) is modelled as `Str := List Nat`,
  a sequence of character codes.  `strCodes` injects Lean string literals.
* A wire frame is a byte buffer.  `Frame.data` is its (decoded) character content and
  `Frame.oversized` records whether the buffer exceeds the platform maximum
  convertible length, in which case `toString` throws (node issue #4266); this is the
  only property of a frame the source ever observes besides its raw bytes.
* JS exceptions are modelled with `Except JsError`, where `JsError.message` is the
  exception message; `Message._decode` inspects that message with `indexOf`.
* The external black boxes (spec section 1: JSON parse/stringify, the HMAC, uuid)
  are modelled by executable stand-ins that satisfy the contracts the spec assigns
  to them: `jsonStringify`/`jsonParse` are an injective serialization with computable
  partial inverse over a JSON value model, `hmacHex` is a deterministic keyed digest
  rendered as lowercase hex, and uuid generation is an oracle parameter whose
  freshness contract enters theorems as a hypothesis.
-/

/-- Character-code sequences: the model of JS strings and of decoded buffer text. -/
abbrev Str := List Nat

/-- Character codes of a Lean string literal. -/
def strCodes (s : String) : Str := s.data.map Char.toNat

/-- Wire delimiter literal `<IDS|MSG>` (src/index.js line 433). -/
def DELIMITER : Str := strCodes "<IDS|MSG>"

/-- Default hashing scheme name (`scheme || "sha256"`). -/
def SCHEME_SHA256 : Str := strCodes "sha256"

/-- JS falsy-default for the scheme argument: `scheme = scheme || "sha256"`. -/
def defaultedScheme (scheme : Str) : Str := if scheme = [] then SCHEME_SHA256 else scheme

/-- Primitive JSON value (null, boolean, number, string).  JSON numbers are modelled
as integers; floating point is irrelevant to every claim. -/
inductive JVal where
  | null
  | bool (b : Bool)
  | num (n : Int)
  | str (s : Str)
deriving DecidableEq

/-- JSON document model: a primitive, an array of primitives, or an object with
primitive values.  The runtime JSON primitives are external black boxes (spec
section 1); this fragment is closed under everything the claims exercise. -/
inductive Json where
  | prim (v : JVal)
  | arr (elems : List JVal)
  | obj (fields : List (Str × JVal))
deriving DecidableEq

/-- JS truthiness of a primitive JSON value: null, false, 0 and the empty string
are falsy. -/
def jvTruthy : JVal → Bool
  | .null => false
  | .bool b => b
  | .num n => n ≠ 0
  | .str s => s ≠ []

/-- JS falsiness of a JSON document.  Arrays and objects (even empty ones) are truthy. -/
def jsFalsy : Json → Bool
  | .prim v => !(jvTruthy v)
  | .arr _ => false
  | .obj _ => false

/-- JS `x || {}`: keep `x` when truthy, otherwise the empty object. -/
def jsOrEmptyObj (j : Json) : Json := if jsFalsy j then Json.obj [] else j

/-! ## Serialization model (`JSON.stringify` / `JSON.parse` black boxes)

An injective, self-delimiting encoding of `Json` into `Str` with a computable
partial inverse.  Only the black-box contract matters to the source:
`jsonParse (jsonStringify j) = some j`, and `jsonParse` fails on
non-well-formed input (`JSON.parse` throwing `SyntaxError`). -/

/-- Little-endian decimal digits of `n` as character codes, with fuel for
structural recursion (`digitsLEAux fuel n` is correct whenever `n ≤ fuel`). -/
def digitsLEAux : Nat → Nat → List Nat
  | _, 0 => []
  | 0, _ + 1 => []
  | fuel + 1, n + 1 => (48 + (n + 1) % 10) :: digitsLEAux fuel ((n + 1) / 10)

/-- Little-endian decimal digits of `n` as character codes. -/
def digitsLE (n : Nat) : List Nat := digitsLEAux n n

/-- Length-field encoding of a natural number: digits then a `;` terminator. -/
def encNat (n : Nat) : Str := digitsLE n ++ [59]

/-- Read back an `encNat`-encoded number, returning the value and the rest. -/
def parseNatLE : List Nat → Option (Nat × List Nat)
  | [] => none
  | c :: rest =>
    if c = 59 then some (0, rest)
    else if 48 ≤ c ∧ c ≤ 57 then
      match parseNatLE rest with
      | some (m, rem) => some ((c - 48) + 10 * m, rem)
      | none => none
    else none

/-- Serialization of a primitive JSON value: a tag character followed by payload. -/
def encJVal : JVal → Str
  | .null => [110]
  | .bool true => [116]
  | .bool false => [102]
  | .num (Int.ofNat m) => 105 :: encNat m
  | .num (Int.negSucc m) => 106 :: encNat m
  | .str s => 115 :: encNat s.length ++ s

/-- Read back one primitive JSON value, returning it and the rest of the input. -/
def parseJVal : List Nat → Option (JVal × List Nat)
  | [] => none
  | c :: rest =>
    if c = 110 then some (.null, rest)
    else if c = 116 then some (.bool true, rest)
    else if c = 102 then some (.bool false, rest)
    else if c = 105 then
      match parseNatLE rest with
      | some (m, rem) => some (.num (Int.ofNat m), rem)
      | none => none
    else if c = 106 then
      match parseNatLE rest with
      | some (m, rem) => some (.num (Int.negSucc m), rem)
      | none => none
    else if c = 115 then
      match parseNatLE rest with
      | some (len, rem) =>
        if len ≤ rem.length then some (.str (rem.take len), rem.drop len) else none
      | none => none
    else none

/-- Serialization of an array body: the items in order (terminator added by `encJson`). -/
def encItems : List JVal → Str
  | [] => []
  | v :: vs => encJVal v ++ encItems vs

/-- Serialization of an object body: each field is a `k` tag, a length-prefixed key,
then the value (terminator added by `encJson`). -/
def encFields : List (Str × JVal) → Str
  | [] => []
  | (k, v) :: fs => 107 :: encNat k.length ++ k ++ encJVal v ++ encFields fs

/-- Read back array items until the `e` terminator (fuel bounds the item count). -/
def parseItems : Nat → List Nat → Option (List JVal × List Nat)
  | 0, _ => none
  | _ + 1, [] => none
  | fuel + 1, c :: input =>
    if c = 101 then some ([], input)
    else
      match parseJVal (c :: input) with
      | some (v, rem) =>
        match parseItems fuel rem with
        | some (vs, rem2) => some (v :: vs, rem2)
        | none => none
      | none => none

/-- Read back object fields until the `e` terminator (fuel bounds the field count). -/
def parseFields : Nat → List Nat → Option (List (Str × JVal) × List Nat)
  | 0, _ => none
  | _ + 1, [] => none
  | fuel + 1, c :: input =>
    if c = 101 then some ([], input)
    else if c = 107 then
      match parseNatLE input with
      | some (len, rem) =>
        if len ≤ rem.length then
          match parseJVal (rem.drop len) with
          | some (v, rem2) =>
            match parseFields fuel rem2 with
            | some (fs, rem3) => some ((rem.take len, v) :: fs, rem3)
            | none => none
          | none => none
        else none
      | none => none
    else none

/-- Model of `JSON.stringify` restricted to the modelled JSON fragment. -/
def jsonStringify : Json → Str
  | .prim v => encJVal v
  | .arr xs => 97 :: encItems xs ++ [101]
  | .obj fs => 111 :: encFields fs ++ [101]

/-- Model of `JSON.parse`: total inverse of `jsonStringify` on its image, `none`
on any other input (the runtime throws `SyntaxError` there). -/
def jsonParse (s : Str) : Option Json :=
  match s with
  | [] => none
  | c :: input =>
    if c = 97 then
      match parseItems (input.length + 1) input with
      | some (xs, []) => some (.arr xs)
      | _ => none
    else if c = 111 then
      match parseFields (input.length + 1) input with
      | some (fs, []) => some (.obj fs)
      | _ => none
    else
      match parseJVal (c :: input) with
      | some (v, []) => some (.prim v)
      | _ => none

/-! ## Frames, JS exceptions, and the external crypto black box -/

/-- Wire frame: a byte buffer.  `data` is its character content; `oversized`
records whether the buffer exceeds the platform maximum convertible length,
the one case in which converting it to text throws (node issue #4266, the
workaround in `Message._decode`). -/
structure Frame where
  data : Str
  oversized : Bool := false
deriving DecidableEq

/-- Frame carrying string content (the frames `_encode` itself produces). -/
def mkF (s : Str) : Frame := ⟨s, false⟩

/-- JS exception value; only the message string is ever inspected by the source. -/
structure JsError where
  message : Str
deriving DecidableEq

/-- Error thrown by `Buffer.prototype.toString` when the buffer exceeds the
maximum string length (the failure class of node issue #4266). -/
def toStringError : JsError := ⟨strCodes "toString failed"⟩

/-- SyntaxError thrown by `JSON.parse` on malformed input.  Its message does not
contain the text `toString`. -/
def jsonSyntaxError : JsError := ⟨strCodes "Unexpected token in JSON"⟩

/-- TypeError thrown by `hmac.update(undefined)` when a frame index is out of
bounds (JS indexing past the end of `messageFrames` yields `undefined`).
Its message does not contain the text `toString`. -/
def hmacTypeError : JsError := ⟨strCodes "The data argument must be of type string or Buffer"⟩

/-- TypeError thrown by `undefined.toString()` when `toJSON` is applied to an
out-of-bounds frame index.  Its message does contain the text `toString`. -/
def undefinedToStringError : JsError := ⟨strCodes "Cannot read property toString of undefined"⟩

/-- Model of `frame.toString()`: yields the text content, or throws for an
oversized buffer. -/
def frameToString (f : Frame) : Except JsError Str :=
  if f.oversized then .error toStringError else .ok f.data

/-- Model of `messageFrames[i].toString()` under JS indexing: an out-of-bounds
index yields `undefined`, and `undefined.toString()` throws a TypeError. -/
def frameToStringU : Option Frame → Except JsError Str
  | none => .error undefinedToStringError
  | some f => frameToString f

/-- Model of `hmac.update(messageFrames[i])`: feeding a frame is total (raw bytes),
but feeding `undefined` (out-of-bounds index) throws a TypeError. -/
def hmacUpdateData : Option Frame → Except JsError Str
  | none => .error hmacTypeError
  | some f => .ok f.data

/-- One mixing step of the HMAC stand-in. -/
def mixStep (acc c : Nat) : Nat := (acc * 31 + c + 1) % (2 ^ 64)

/-- Mix one string into the running digest state, with a leading separator step
so distinct argument lists mix differently. -/
def mixStr (acc : Nat) (s : Str) : Nat := s.foldl mixStep (mixStep acc 257)

/-- Hexadecimal digit characters (lowercase), with fuel for structural recursion. -/
def hexDigitsAux : Nat → Nat → List Nat
  | _, 0 => []
  | 0, _ + 1 => []
  | fuel + 1, n + 1 =>
    (if (n + 1) % 16 < 10 then 48 + (n + 1) % 16 else 87 + (n + 1) % 16) ::
      hexDigitsAux fuel ((n + 1) / 16)

/-- Lowercase hexadecimal rendering of a natural number (`digest("hex")`). -/
def natToHex (n : Nat) : Str := if n = 0 then [48] else hexDigitsAux n n

/-- Model of the HMAC black box `crypto.createHmac(scheme, key)` followed by
`update` on each listed byte sequence and `digest("hex")`: a deterministic
keyed digest of the scheme, the key and the updated data, rendered as a
lowercase hexadecimal string.  Only the black-box contract matters to the
source: the digest is a pure function of `(scheme, key, data list)`. -/
def hmacHex (scheme key : Str) (data : List Str) : Str :=
  natToHex (data.foldl mixStr (mixStr (mixStr 7 scheme) key))

/-! ## The Message data model (current variant, src/index.js lines 446-478) -/

/-- Jupyter message (constructor `Message(properties)`).  All six members are
always present on a constructed message. -/
structure Message where
  idents : List Frame
  header : Json
  parent_header : Json
  metadata : Json
  content : Json
  buffers : List Frame
deriving DecidableEq

/-- Model of `new Message(properties)` with all properties supplied
(src/index.js lines 446-478): each of the four JSON members is defaulted to
`{}` when the supplied value is JS-falsy (`properties.header || {}`); the two
array members are used as given, because JS arrays (even empty ones) are
truthy. -/
def mkMessageJS (idents : List Frame) (header parent_header metadata content : Json)
    (buffers : List Frame) : Message :=
  ⟨idents, jsOrEmptyObj header, jsOrEmptyObj parent_header, jsOrEmptyObj metadata,
    jsOrEmptyObj content, buffers⟩

/-! ## Encoding (Message.prototype._encode, src/index.js lines 612-644) -/

/-- Model of `Message.prototype._encode(scheme, key)`: serialize the four JSON
members, compute the signature (empty string when the key is empty), and emit
`idents..., <IDS|MSG>, signature, header, parent_header, metadata, content,
buffers...` (the source builds this exact list with `concat`). -/
def Message._encode (m : Message) (scheme key : Str) : List Frame :=
  let schemeD := defaultedScheme scheme
  let header := jsonStringify m.header
  let parent_header := jsonStringify m.parent_header
  let metadata := jsonStringify m.metadata
  let content := jsonStringify m.content
  let signature :=
    if key = [] then [] else hmacHex schemeD key [header, parent_header, metadata, content]
  m.idents ++ mkF DELIMITER :: mkF signature :: mkF header :: mkF parent_header ::
    mkF metadata :: mkF content :: m.buffers

/-! ## Decoding (_decode and Message._decode, src/index.js lines 529-602) -/

/-- Model of the ident-scanning loop of `_decode` (lines 548-556): collect frames
into `idents` until one whose `toString()` equals the delimiter is found, and
return the collected idents together with the frames from the delimiter position
on.  `toString()` of an oversized frame throws out of the loop. -/
def scanIdents : List Frame → Except JsError (List Frame × List Frame)
  | [] => .ok ([], [])
  | f :: rest =>
    match frameToString f with
    | .error err => .error err
    | .ok s =>
      if s = DELIMITER then .ok ([], f :: rest)
      else
        match scanIdents rest with
        | .error err => .error err
        | .ok (idents, rem) => .ok (f :: idents, rem)

/-- Model of the message construction of `_decode` (lines 588-595): parse the four
JSON segments in the evaluation order of the object literal — `header`,
`parent_header`, `content` (frame i+5), then `metadata` (frame i+4) — and build
the Message via the constructor defaults.  `f5?` is `messageFrames[i + 5]`,
which is `undefined` when only four frames follow the delimiter. -/
def parseSegments (idents : List Frame) (f2 f3 f4 : Frame) (f5? : Option Frame)
    (tail : List Frame) : Except JsError (Option Message) :=
  match frameToString f2 with
  | .error err => .error err
  | .ok s2 =>
    match jsonParse s2 with
    | none => .error jsonSyntaxError
    | some header =>
      match frameToString f3 with
      | .error err => .error err
      | .ok s3 =>
        match jsonParse s3 with
        | none => .error jsonSyntaxError
        | some parent_header =>
          match frameToStringU f5? with
          | .error err => .error err
          | .ok s5 =>
            match jsonParse s5 with
            | none => .error jsonSyntaxError
            | some content =>
              match frameToString f4 with
              | .error err => .error err
              | .ok s4 =>
                match jsonParse s4 with
                | none => .error jsonSyntaxError
                | some metadata =>
                  .ok (some (mkMessageJS idents header parent_header metadata content
                    (tail.drop 1)))

/-- Model of the module-local function `_decode(messageFrames, scheme, key)`
(lines 544-602; named `_decodeFun` here because a bare `_decode` inside
`Message._decode` would be captured by that declaration itself).  Returns
`.ok none` where the source returns `null`, `.ok (some msg)` on success, and
`.error e` where the source throws.  The frame list from the delimiter position
is destructured instead of indexed: `d` is frame i, `f1` frame i+1 (claimed
signature), `f2`..`f4` frames i+2..i+4, and `tail` the frames from i+5 on
(`tail.head?` is `messageFrames[i+5]`, `undefined` when absent); fewer than 5
frames from the delimiter position is exactly the source's
`messageFrames.length - i < 5` test. -/
def _decodeFun (messageFrames : List Frame) (scheme key : Str) :
    Except JsError (Option Message) :=
  let schemeD := defaultedScheme scheme
  match scanIdents messageFrames with
  | .error err => .error err
  | .ok (idents, rest) =>
    match rest with
    | d :: f1 :: f2 :: f3 :: f4 :: tail =>
      match frameToString d with
      | .error err => .error err
      | .ok ds =>
        if ds ≠ DELIMITER then .ok none
        else
          if key = [] then parseSegments idents f2 f3 f4 tail.head? tail
          else
            match frameToString f1 with
            | .error err => .error err
            | .ok obtainedSignature =>
              match hmacUpdateData tail.head? with
              | .error err => .error err
              | .ok d5 =>
                let expectedSignature :=
                  hmacHex schemeD key [f2.data, f3.data, f4.data, d5]
                if expectedSignature ≠ obtainedSignature then .ok none
                else parseSegments idents f2 f3 f4 tail.head? tail
    | _ => .ok none

/-- JS `haystack.indexOf(needle)` on strings: index of the first occurrence of
`needle`, or `-1`. -/
def indexOfSubAux (needle : Str) : Str → Nat → Option Nat
  | [], i => if needle.isEmpty then some i else none
  | c :: t, i =>
    if needle.isPrefixOf (c :: t) then some i else indexOfSubAux needle t (i + 1)

/-- JS `haystack.indexOf(needle)`, returning an `Int` so that `-1` means absent. -/
def indexOfSub (needle hay : Str) : Int :=
  match indexOfSubAux needle hay 0 with
  | some i => Int.ofNat i
  | none => -1

/-- Model of `Message._decode(messageFrames, scheme, key)` (lines 529-542): run
`_decode` inside a try/catch that swallows exactly the failures whose message
contains `toString` (returning `null` for those) and rethrows every other
exception. -/
def Message._decode (messageFrames : List Frame) (scheme key : Str) :
    Except JsError (Option Message) :=
  match _decodeFun messageFrames scheme key with
  | .ok r => .ok r
  | .error err =>
    if indexOfSub (strCodes "toString") err.message = -1 then .error err else .ok none

deriving instance DecidableEq for Except

/-! ## Reply construction (Message.prototype.respond, src/index.js lines 490-517) -/

/-- JS property access `obj[k]` on a JSON document: `none` models `undefined`
(missing property, or access on a non-object). -/
def jsonGet : Json → Str → Option JVal
  | .obj fields, k => lookupField fields k
  | _, _ => none
where
  lookupField : List (Str × JVal) → Str → Option JVal
    | [], _ => none
    | (key, v) :: tl, k => if key = k then some v else lookupField tl k

/-- JS truthiness of the whole JSON document (objects and arrays are truthy). -/
def jsTruthy (j : Json) : Bool := !(jsFalsy j)

/-- Field list of the header object literal `{msg_id, username, session,
msg_type}` followed by an optional trailing `version` assignment, with the
`username`, `session` and `version` values abstracted: a property whose value is
`undefined` is modelled as absent, which is equivalent for every later property
access and for `JSON.stringify` (which drops undefined-valued properties). -/
def mkRespondFields (freshMsgId messageType : Str) (uOpt sOpt vOpt : Option JVal) :
    List (Str × JVal) :=
  (strCodes "msg_id", JVal.str freshMsgId) ::
    ((match uOpt with | some v => [(strCodes "username", v)] | none => []) ++
      ((match sOpt with | some v => [(strCodes "session", v)] | none => []) ++
        ((strCodes "msg_type", JVal.str messageType) ::
          (match vOpt with | some v => [(strCodes "version", v)] | none => []))))

/-- Version inherited from the request header: the source's
`if (this.header && this.header.version) response.header.version = ...`, i.e.
set only when the header and its `version` member are both JS-truthy. -/
def respondInheritedVersion (m : Message) : Option JVal :=
  if jsTruthy m.header then
    match jsonGet m.header (strCodes "version") with
    | some v => if jvTruthy v then some v else none
    | none => none
  else none

/-- Version finally stored by `respond`: the inherited one, overwritten by the
source's `if (protocolVersion) response.header.version = protocolVersion` when
the caller supplied a truthy (non-empty) protocol version. -/
def respondFinalVersion (m : Message) (protocolVersion : Option Str) : Option JVal :=
  match protocolVersion with
  | some pv => if pv = [] then respondInheritedVersion m else some (JVal.str pv)
  | none => respondInheritedVersion m

/-- Header object built by `respond` (lines 497-508): the object literal with a
fresh `msg_id` (`freshMsgId` stands for the `uuid()` call, an external black box
modelled as an oracle argument), `username` and `session` read off the request
header, the caller-supplied `msg_type`, and the conditional `version`. -/
def respondHeaderFields (m : Message) (freshMsgId messageType : Str)
    (protocolVersion : Option Str) : List (Str × JVal) :=
  mkRespondFields freshMsgId messageType
    (jsonGet m.header (strCodes "username"))
    (jsonGet m.header (strCodes "session"))
    (respondFinalVersion m protocolVersion)

/-- JS `x || {}` for an optional argument (`undefined` when omitted). -/
def jsArgOrEmptyObj : Option Json → Json
  | none => Json.obj []
  | some j => jsOrEmptyObj j

/-- Model of `Message.prototype.respond(socket, messageType, content, metadata,
protocolVersion)` (lines 490-517): build the reply — idents copied, fresh header,
`parent_header` set to this message's header verbatim, `content`/`metadata`
defaulted to `{}` — hand it to `socket.send` (the transport black box; the
returned value is exactly the message passed to it) and return it.  `freshMsgId`
is the `uuid()` oracle. -/
def Message.respond (m : Message) (freshMsgId messageType : Str)
    (content metadata : Option Json) (protocolVersion : Option Str) : Message :=
  { idents := m.idents,
    header := Json.obj (respondHeaderFields m freshMsgId messageType protocolVersion),
    parent_header := m.header,
    metadata := jsArgOrEmptyObj metadata,
    content := jsArgOrEmptyObj content,
    buffers := [] }

/-! ## Framed socket listener bookkeeping
(Socket.prototype.on/once/removeListener/removeAllListeners, src/index.js
lines 654-807)

Application listener callbacks are identified by a `Nat` (JS function identity);
each registration creates a fresh wrapper closure, identified by a fresh `Nat`
(`wid`).  The state tracks `this._jmp._listeners` (the unwrapped-to-wrapped
mapping) and the transport-level handler list for the `"message"` event (the
wrapper closures registered with `p.on`).  Operations for events other than
`"message"` delegate to the transport untouched and do not affect this state.
Listeners are modelled as invocation sinks that either return or throw
(`behavior`); a listener that itself mutates the socket is outside the modelled
scope, as is a frame delivery arriving during another delivery (the host event
loop serializes them, spec section 5). -/

/-- One entry of `this._jmp._listeners`: the original callback, the identity of
the wrapper closure built for it, and whether the wrapper has `once` semantics. -/
structure Entry where
  unwrapped : Nat
  wid : Nat
  once : Bool
deriving DecidableEq

/-- Framed socket state: configured scheme and key (`this._jmp`), the listener
mapping, the transport handler list for the message event, and the fresh-wrapper
counter. -/
structure SocketState where
  scheme : Str
  key : Str
  listeners : List Entry
  transport : List Entry
  nextWid : Nat
deriving DecidableEq

/-- State of a freshly constructed `Socket(socketType, scheme, key)`
(lines 654-661). -/
def initSocket (scheme key : Str) : SocketState :=
  ⟨scheme, key, [], [], 0⟩

/-- Model of `Socket.prototype.on("message", listener)` (lines 695-715): push the
`{unwrapped, wrapped}` pair onto `_listeners`, then register the wrapper with the
transport (`p.on` appends). -/
def Socket.on (s : SocketState) (l : Nat) : SocketState :=
  let e : Entry := ⟨l, s.nextWid, false⟩
  { s with
      listeners := s.listeners ++ [e]
      transport := s.transport ++ [e]
      nextWid := s.nextWid + 1 }

/-- Model of `Socket.prototype.addListener` (line 725): the same function as `on`. -/
def Socket.addListener (s : SocketState) (l : Nat) : SocketState := Socket.on s l

/-- Model of `Socket.prototype.once("message", listener)` (lines 735-765): like
`on` but the wrapper has once semantics; note the source registers the wrapper
with `p.on`, not `p.once` — self-removal is the wrapper's own job. -/
def Socket.once (s : SocketState) (l : Nat) : SocketState :=
  let e : Entry := ⟨l, s.nextWid, true⟩
  { s with
      listeners := s.listeners ++ [e]
      transport := s.transport ++ [e]
      nextWid := s.nextWid + 1 }

/-- First entry whose `unwrapped` is the given callback, with the list that
remains after splicing it out (the search loop of `removeListener`,
lines 781-788). -/
def removeFirst : List Entry → Nat → Option (Entry × List Entry)
  | [], _ => none
  | e :: rest, l =>
    if e.unwrapped = l then some (e, rest)
    else
      match removeFirst rest l with
      | some (f, rest2) => some (f, e :: rest2)
      | none => none

/-- Transport-side `p.removeListener(event, wrapped)`: EventEmitter removes at
most one instance of the given closure; wrapper identities are unique, so this
removes the entry carrying that wrapper id. -/
def removeFirstWid : List Entry → Nat → List Entry
  | [], _ => []
  | e :: rest, w => if e.wid = w then rest else e :: removeFirstWid rest w

/-- Model of `Socket.prototype.removeListener("message", listener)`
(lines 774-791): find the first mapping entry whose original callback matches by
identity, splice it out, and remove its wrapper from the transport; when no entry
matches, the delegated `p.removeListener(event, listener)` is a no-op on the
message handlers because the raw callback was never registered there (only
wrappers are). -/
def Socket.removeListener (s : SocketState) (l : Nat) : SocketState :=
  match removeFirst s.listeners l with
  | some (e, rest) =>
    { s with listeners := rest, transport := removeFirstWid s.transport e.wid }
  | none => s

/-- Model of `Socket.prototype.removeAllListeners([event])` (lines 799-807):
with no argument or with `"message"`, empty the mapping
(`this._jmp._listeners.length = 0`); the delegated `p.removeAllListeners` then
drops the transport-level handlers (all events when no argument, the named event
otherwise — either way the message handlers modelled here are dropped exactly
when the mapping is emptied). -/
def Socket.removeAllListeners (s : SocketState) (event : Option Str) : SocketState :=
  match event with
  | none => { s with listeners := [], transport := [] }
  | some ev =>
    if ev = strCodes "message" then { s with listeners := [], transport := [] }
    else s

/-- Run one wrapper closure on a delivered frame list (the closures built in
`on`, lines 702-712, and `once`, lines 742-760).  `behavior l` is the outcome of
invoking application listener `l` (`none` = returns, `some e` = throws `e`).
Returns the socket state afterwards, the listeners invoked, and the exception
propagating out of the wrapper, if any.  The `once` wrapper removes the
listener by original-callback identity after the `try` (and inside the `catch`
before rethrowing); the removal runs even when decode produced no message,
because it sits outside the `if (message)` block. -/
def runWrapper (s : SocketState) (e : Entry) (frames : List Frame)
    (behavior : Nat → Option JsError) : SocketState × List Nat × Option JsError :=
  match Message._decode frames s.scheme s.key with
  | .error err => (s, [], some err)
  | .ok none =>
    if e.once then (Socket.removeListener s e.unwrapped, [], none)
    else (s, [], none)
  | .ok (some _) =>
    if e.once then
      match behavior e.unwrapped with
      | some err => (Socket.removeListener s e.unwrapped, [e.unwrapped], some err)
      | none => (Socket.removeListener s e.unwrapped, [e.unwrapped], none)
    else
      match behavior e.unwrapped with
      | some err => (s, [e.unwrapped], some err)
      | none => (s, [e.unwrapped], none)

/-- Run the wrappers of a snapshot in order, stopping at the first exception
(an EventEmitter `emit` iterates over a copy of the handler array, so removals
during the delivery do not skip handlers; a throwing handler aborts the emit). -/
def emitGo (s : SocketState) (snapshot : List Entry) (frames : List Frame)
    (behavior : Nat → Option JsError) : SocketState × List Nat × Option JsError :=
  match snapshot with
  | [] => (s, [], none)
  | e :: rest =>
    match runWrapper s e frames behavior with
    | (s1, inv, some err) => (s1, inv, some err)
    | (s1, inv, none) =>
      match emitGo s1 rest frames behavior with
      | (s2, invs, err?) => (s2, inv ++ invs, err?)

/-- Delivery of one `"message"` event with the given raw frames: run every
transport-registered wrapper on them. -/
def emitMessage (s : SocketState) (frames : List Frame)
    (behavior : Nat → Option JsError) : SocketState × List Nat × Option JsError :=
  emitGo s s.transport frames behavior

/-- One application-visible operation on the framed socket (message event). -/
inductive SockOp where
  | on (l : Nat)
  | addListener (l : Nat)
  | once (l : Nat)
  | removeListener (l : Nat)
  | removeAllListeners (event : Option Str)
  | deliver (frames : List Frame) (behavior : Nat → Option JsError)

/-- Apply one operation to the socket state. -/
def applyOp (s : SocketState) : SockOp → SocketState
  | .on l => Socket.on s l
  | .addListener l => Socket.addListener s l
  | .once l => Socket.once s l
  | .removeListener l => Socket.removeListener s l
  | .removeAllListeners ev => Socket.removeAllListeners s ev
  | .deliver frames behavior => (emitMessage s frames behavior).1

/-- Apply a sequence of operations in order. -/
def applyOps (ops : List SockOp) (s : SocketState) : SocketState :=
  match ops with
  | [] => s
  | op :: rest => applyOps rest (applyOp s op)

/-! ## Predicates and concrete instances used by the claims -/

/-- Frame that converts to text successfully and is not the delimiter: the scan
loop of `_decode` passes over exactly such frames. -/
def cleanIdent (f : Frame) : Bool :=
  match frameToString f with
  | .ok s => decide (s ≠ DELIMITER)
  | .error _ => false

/-- Frame that does not successfully convert to the delimiter text (it may fail
to convert at all): the scan loop never breaks at such a frame. -/
def notDelimIdent (f : Frame) : Bool :=
  match frameToString f with
  | .ok s => decide (s ≠ DELIMITER)
  | .error _ => true

/-- All four JSON members of the message are JS-truthy, so the constructor
defaults of `new Message(properties)` leave them unchanged.  JSON objects —
the shape the protocol assigns to all four members — always satisfy this. -/
def nonFalsyFields (m : Message) : Bool :=
  !(jsFalsy m.header) && !(jsFalsy m.parent_header) && !(jsFalsy m.metadata) &&
    !(jsFalsy m.content)

/-- Socket-state soundness: transport handlers and the listener mapping agree,
wrapper ids are distinct, and all are below the fresh counter. -/
def StateOK (s : SocketState) : Prop :=
  s.transport = s.listeners ∧ (s.listeners.map Entry.wid).Nodup ∧
    ∀ e ∈ s.listeners, e.wid < s.nextWid

/-- Serialized empty JSON object. -/
def objStr : Str := jsonStringify (Json.obj [])

/-- Message with no idents, empty-object members and no buffers. -/
def emptyMsg : Message := ⟨[], Json.obj [], Json.obj [], Json.obj [], Json.obj [], []⟩

/-- Well-formed unsigned encoding of `emptyMsg`: decodes successfully with an
empty key. -/
def goodFrames : List Frame := Message._encode emptyMsg [] []

/-- Message whose single ident frame reads as the delimiter: the decode scan
breaks at it, so the claimed round-trip fails (C1 counterexample). -/
def mBadC1 : Message :=
  ⟨[mkF DELIMITER], Json.obj [], Json.obj [], Json.obj [], Json.obj [], []⟩

/-- Key `"a"` and key `"b"` as character codes. -/
def keyA : Str := [97]

/-- Second key for the signature-rejection claims. -/
def keyB : Str := [98]

/-- Digest a decoder using `keyB` would expect over four empty-object segments. -/
def sigForKeyB : Str := hmacHex SCHEME_SHA256 keyB [objStr, objStr, objStr, objStr]

/-- Message whose idents spoof a delimiter, a `keyB` signature and four JSON
segments, so that decoding its `keyA` encoding under `keyB` yields a message
instead of the claimed rejection (C4 counterexample). -/
def mC4 : Message :=
  ⟨[mkF DELIMITER, mkF sigForKeyB, mkF objStr, mkF objStr, mkF objStr, mkF objStr],
    Json.obj [], Json.obj [], Json.obj [], Json.obj [], []⟩

/-- Message that decoding the `keyA` encoding of `mC4` under `keyB` actually
produces: the six spoofed ident frames are consumed as a complete message and
the genuine frames become buffers. -/
def mC4decoded : Message :=
  ⟨[], Json.obj [], Json.obj [], Json.obj [], Json.obj [],
    [mkF DELIMITER, mkF (hmacHex SCHEME_SHA256 keyA [objStr, objStr, objStr, objStr]),
      mkF objStr, mkF objStr, mkF objStr, mkF objStr]⟩

/-- Frame sequence whose header segment (frame 2 after the delimiter) is not
parseable JSON (C2 counterexample). -/
def badJsonFrames : List Frame :=
  [mkF DELIMITER, mkF [], mkF [], mkF objStr, mkF objStr, mkF objStr]

/-- Frame sequence with a delimiter followed by exactly 4 frames — signature and
three JSON segments, the content frame missing (C3 counterexample). -/
def fourAfterDelim : List Frame :=
  [mkF DELIMITER, mkF [], mkF objStr, mkF objStr, mkF objStr]

/-- Listener behavior in which no application listener ever throws. -/
def noThrow : Nat → Option JsError := fun _ => none

/-- Concrete message exercising the amended round-trip: one binary ident, truthy
JSON members of three shapes, one oversized buffer (buffers are never converted,
so an oversized one round-trips). -/
def mW : Message :=
  ⟨[⟨[120, 0, 255], false⟩],
    Json.obj [(strCodes "x", JVal.num 1)],
    Json.obj [],
    Json.arr [JVal.bool true, JVal.null],
    Json.prim (JVal.str (strCodes "hi")),
    [⟨[9, 9], true⟩]⟩

/-- Concrete scheme name used by witnesses. -/
def schemeMd5 : Str := strCodes "md5"

/-- Concrete non-empty key used by witnesses. -/
def keyK : Str := [107]

/-! ## Serialization round-trip lemmas -/

theorem take_append_self (l1 l2 : List Nat) : (l1 ++ l2).take l1.length = l1 := by
  induction l1 with
  | nil => rfl
  | cons c t ih => simp [ih]

theorem drop_append_self (l1 l2 : List Nat) : (l1 ++ l2).drop l1.length = l2 := by
  induction l1 with
  | nil => rfl
  | cons c t ih => exact ih

theorem parseNatLE_digits (fuel : Nat) :
    ∀ n rest, n ≤ fuel →
      parseNatLE (digitsLEAux fuel n ++ 59 :: rest) = some (n, rest) := by
  induction fuel with
  | zero =>
    intro n rest hn
    interval_cases n
    simp [digitsLEAux, parseNatLE]
  | succ fuel ih =>
    intro n rest hn
    match n with
    | 0 => simp [digitsLEAux, parseNatLE]
    | n + 1 =>
      have hd : (n + 1) % 10 < 10 := Nat.mod_lt _ (by omega)
      have hdiv : (n + 1) / 10 ≤ fuel := by
        have := Nat.div_lt_self (Nat.succ_pos n) (by omega : 1 < 10)
        omega
      have hrec := ih ((n + 1) / 10) rest hdiv
      simp only [digitsLEAux, List.cons_append, parseNatLE]
      rw [if_neg (by omega), if_pos (by omega)]
      rw [show (digitsLEAux fuel ((n + 1) / 10)).append (59 :: rest) =
        digitsLEAux fuel ((n + 1) / 10) ++ 59 :: rest from rfl]
      rw [hrec]
      simp only [Option.some.injEq, Prod.mk.injEq, and_true]
      have := Nat.mod_add_div (n + 1) 10
      omega

theorem parseNatLE_encNat (n : Nat) (rest : List Nat) :
    parseNatLE (encNat n ++ rest) = some (n, rest) := by
  have h : encNat n ++ rest = digitsLEAux n n ++ 59 :: rest := by
    simp [encNat, digitsLE]
  rw [h, parseNatLE_digits n n rest (Nat.le_refl n)]

theorem parseJVal_encJVal (v : JVal) (rest : List Nat) :
    parseJVal (encJVal v ++ rest) = some (v, rest) := by
  cases v with
  | null => simp [encJVal, parseJVal]
  | bool b => cases b <;> simp [encJVal, parseJVal]
  | num n =>
    cases n with
    | ofNat m =>
      rw [show encJVal (.num (Int.ofNat m)) ++ rest = 105 :: (encNat m ++ rest) from rfl]
      simp only [parseJVal]
      norm_num
      rw [parseNatLE_encNat m rest]
    | negSucc m =>
      rw [show encJVal (.num (Int.negSucc m)) ++ rest = 106 :: (encNat m ++ rest) from rfl]
      simp only [parseJVal]
      norm_num
      rw [parseNatLE_encNat m rest]
  | str s =>
    rw [show encJVal (.str s) ++ rest = 115 :: (encNat s.length ++ (s ++ rest)) by
      simp [encJVal]]
    simp only [parseJVal]
    norm_num
    rw [parseNatLE_encNat s.length (s ++ rest)]
    have hle : s.length ≤ (s ++ rest).length := by
      simp only [List.length_append]
      omega
    simp [hle, take_append_self, drop_append_self]

/-- Every primitive encoding starts with a tag distinct from the structural
tag characters `e`, `a`, `o`, `k`. -/
theorem encJVal_head (v : JVal) :
    ∃ c t, encJVal v = c :: t ∧ c ≠ 101 ∧ c ≠ 97 ∧ c ≠ 111 ∧ c ≠ 107 := by
  cases v with
  | null => exact ⟨110, _, rfl, by omega, by omega, by omega, by omega⟩
  | bool b =>
    cases b with
    | false => exact ⟨102, _, rfl, by omega, by omega, by omega, by omega⟩
    | true => exact ⟨116, _, rfl, by omega, by omega, by omega, by omega⟩
  | num n => cases n with
    | ofNat m => exact ⟨105, _, rfl, by omega, by omega, by omega, by omega⟩
    | negSucc m => exact ⟨106, _, rfl, by omega, by omega, by omega, by omega⟩
  | str s => exact ⟨115, _, rfl, by omega, by omega, by omega, by omega⟩

theorem parseItems_encItems (xs : List JVal) :
    ∀ fuel rest, xs.length < fuel →
      parseItems fuel (encItems xs ++ 101 :: rest) = some (xs, rest) := by
  induction xs with
  | nil =>
    intro fuel rest hf
    match fuel with
    | fuel + 1 => simp [encItems, parseItems]
  | cons v vs ih =>
    intro fuel rest hf
    match fuel with
    | fuel + 1 =>
      obtain ⟨c, t, hv, hc101, _, _, _⟩ := encJVal_head v
      have hshape : encItems (v :: vs) ++ 101 :: rest =
          c :: (t ++ (encItems vs ++ 101 :: rest)) := by
        simp [encItems, hv]
      rw [hshape]
      have hparse : parseJVal (c :: (t ++ (encItems vs ++ 101 :: rest))) =
          some (v, encItems vs ++ 101 :: rest) := by
        have := parseJVal_encJVal v (encItems vs ++ 101 :: rest)
        rwa [hv, List.cons_append] at this
      simp only [parseItems, if_neg hc101, hparse]
      rw [ih fuel rest (by simpa using Nat.lt_of_succ_lt_succ hf)]

theorem parseFields_encFields (fs : List (Str × JVal)) :
    ∀ fuel rest, fs.length < fuel →
      parseFields fuel (encFields fs ++ 101 :: rest) = some (fs, rest) := by
  induction fs with
  | nil =>
    intro fuel rest hf
    match fuel with
    | fuel + 1 => simp [encFields, parseFields]
  | cons kv fs ih =>
    intro fuel rest hf
    obtain ⟨k, v⟩ := kv
    match fuel with
    | fuel + 1 =>
      have hshape : encFields ((k, v) :: fs) ++ 101 :: rest =
          107 :: (encNat k.length ++ (k ++ (encJVal v ++ (encFields fs ++ 101 :: rest)))) := by
        simp [encFields]
      rw [hshape]
      simp only [parseFields]
      norm_num
      rw [parseNatLE_encNat k.length (k ++ (encJVal v ++ (encFields fs ++ 101 :: rest)))]
      have hle : k.length ≤ (k ++ (encJVal v ++ (encFields fs ++ 101 :: rest))).length := by
        simp only [List.length_append]
        omega
      simp [hle, take_append_self, drop_append_self,
        parseJVal_encJVal v (encFields fs ++ 101 :: rest),
        ih fuel rest (by simpa using Nat.lt_of_succ_lt_succ hf)]

/-- Every primitive encoding is nonempty, so bodies are at least as long as their
item count. -/
theorem length_le_encItems (xs : List JVal) : xs.length ≤ (encItems xs).length := by
  induction xs with
  | nil => simp [encItems]
  | cons v vs ih =>
    obtain ⟨c, t, hv, _⟩ := encJVal_head v
    simp [encItems, hv]
    omega

theorem length_le_encFields (fs : List (Str × JVal)) : fs.length ≤ (encFields fs).length := by
  induction fs with
  | nil => simp [encFields]
  | cons kv fs ih =>
    obtain ⟨k, v⟩ := kv
    simp [encFields]
    omega

/-- Round-trip of the serialization black box: `JSON.parse ∘ JSON.stringify = some`. -/
theorem jsonParse_jsonStringify (j : Json) : jsonParse (jsonStringify j) = some j := by
  cases j with
  | prim v =>
    obtain ⟨c, t, hv, _, h97, h111, _⟩ := encJVal_head v
    have hparse : parseJVal (c :: t) = some (v, []) := by
      have := parseJVal_encJVal v []
      rwa [hv, List.append_nil] at this
    simp [jsonStringify, hv, jsonParse, h97, h111, hparse]
  | arr xs =>
    have hlen : xs.length < (encItems xs ++ [101]).length + 1 := by
      have := length_le_encItems xs
      simp only [List.length_append, List.length_cons, List.length_nil]
      omega
    have hp := parseItems_encItems xs ((encItems xs ++ [101]).length + 1) [] hlen
    show jsonParse (97 :: (encItems xs ++ [101])) = some (.arr xs)
    simp only [jsonParse]
    rw [if_true]
    rw [hp]
  | obj fs =>
    have hlen : fs.length < (encFields fs ++ [101]).length + 1 := by
      have := length_le_encFields fs
      simp only [List.length_append, List.length_cons, List.length_nil]
      omega
    have hp := parseFields_encFields fs ((encFields fs ++ [101]).length + 1) [] hlen
    show jsonParse (111 :: (encFields fs ++ [101])) = some (.obj fs)
    simp only [jsonParse]
    rw [if_true]
    rw [hp]
    norm_num

/-! ## Frame and scan lemmas -/

theorem frameToString_mkF (s : Str) : frameToString (mkF s) = .ok s := rfl

theorem frameToString_error_eq (f : Frame) (e : JsError)
    (h : frameToString f = .error e) : e = toStringError := by
  unfold frameToString at h
  by_cases hf : f.oversized
  · rw [if_pos hf] at h
    injection h with h2
    exact h2.symm
  · rw [if_neg hf] at h
    cases h

theorem scanIdents_error_eq (frames : List Frame) (e : JsError)
    (h : scanIdents frames = .error e) : e = toStringError := by
  induction frames with
  | nil => simp [scanIdents] at h
  | cons f rest ih =>
    rw [scanIdents] at h
    cases hfs : frameToString f with
    | error err =>
      rw [hfs] at h
      injection h with h2
      rw [← h2]
      exact frameToString_error_eq f err hfs
    | ok s =>
      rw [hfs] at h
      simp only [] at h
      by_cases hs : s = DELIMITER
      · rw [if_pos hs] at h
        cases h
      · rw [if_neg hs] at h
        cases hrec : scanIdents rest with
        | error err =>
          rw [hrec] at h
          injection h with h2
          rw [h2] at hrec
          exact ih hrec
        | ok p =>
          rw [hrec] at h
          cases p
          simp at h

theorem scanIdents_clean (idents : List Frame) (d : Frame) (rest : List Frame)
    (hclean : ∀ f ∈ idents, cleanIdent f = true)
    (hd : frameToString d = .ok DELIMITER) :
    scanIdents (idents ++ d :: rest) = .ok (idents, d :: rest) := by
  induction idents with
  | nil =>
    rw [List.nil_append, scanIdents, hd]
    simp only []
    rw [if_true]
  | cons f t ih =>
    have hf := hclean f (by simp)
    unfold cleanIdent at hf
    cases hfs : frameToString f with
    | error err =>
      rw [hfs] at hf
      cases hf
    | ok s =>
      rw [hfs] at hf
      have hs : ¬(s = DELIMITER) := by simpa using hf
      rw [List.cons_append, scanIdents, hfs]
      simp only []
      rw [if_neg hs, ih (fun g hg => hclean g (by simp [hg]))]

theorem scanIdents_notDelim_append (idents : List Frame) (d : Frame) (rest : List Frame)
    (h : ∀ f ∈ idents, notDelimIdent f = true)
    (hd : frameToString d = .ok DELIMITER) :
    scanIdents (idents ++ d :: rest) = .ok (idents, d :: rest) ∨
      scanIdents (idents ++ d :: rest) = .error toStringError := by
  induction idents with
  | nil =>
    left
    rw [List.nil_append, scanIdents, hd]
    simp only []
    rw [if_true]
  | cons f t ih =>
    have hf := h f (by simp)
    unfold notDelimIdent at hf
    cases hfs : frameToString f with
    | error err =>
      right
      have herr : err = toStringError := frameToString_error_eq f err hfs
      rw [List.cons_append, scanIdents, hfs, herr]
    | ok s =>
      rw [hfs] at hf
      have hs : ¬(s = DELIMITER) := by simpa using hf
      rcases ih (fun g hg => h g (by simp [hg])) with hcase | hcase
      · left
        rw [List.cons_append, scanIdents, hfs]
        simp only []
        rw [if_neg hs, hcase]
      · right
        rw [List.cons_append, scanIdents, hfs]
        simp only []
        rw [if_neg hs, hcase]

theorem scanIdents_notDelim_all (frames : List Frame)
    (h : ∀ f ∈ frames, notDelimIdent f = true) :
    scanIdents frames = .ok (frames, []) ∨ scanIdents frames = .error toStringError := by
  induction frames with
  | nil =>
    left
    rfl
  | cons f t ih =>
    have hf := h f (by simp)
    unfold notDelimIdent at hf
    cases hfs : frameToString f with
    | error err =>
      right
      have herr : err = toStringError := frameToString_error_eq f err hfs
      rw [scanIdents, hfs, herr]
    | ok s =>
      rw [hfs] at hf
      have hs : ¬(s = DELIMITER) := by simpa using hf
      rcases ih (fun g hg => h g (by simp [hg])) with hcase | hcase
      · left
        rw [scanIdents, hfs]
        simp only []
        rw [if_neg hs, hcase]
      · right
        rw [scanIdents, hfs]
        simp only []
        rw [if_neg hs, hcase]

/-! ## Message._decode catch-layer lemmas -/

theorem mdecode_of_raw (frames : List Frame) (scheme key : Str)
    (r : Option Message) (h : _decodeFun frames scheme key = .ok r) :
    Message._decode frames scheme key = .ok r := by
  rw [Message._decode, h]

theorem mdecode_catch_toString (frames : List Frame) (scheme key : Str)
    (h : _decodeFun frames scheme key = .error toStringError) :
    Message._decode frames scheme key = .ok none := by
  rw [Message._decode, h]
  norm_num [show indexOfSub (strCodes "toString") toStringError.message = 0 from by decide]

theorem mdecode_rethrow (frames : List Frame) (scheme key : Str) (e : JsError)
    (h : _decodeFun frames scheme key = .error e)
    (hmsg : indexOfSub (strCodes "toString") e.message = -1) :
    Message._decode frames scheme key = .error e := by
  rw [Message._decode, h]
  simp only []
  rw [if_pos hmsg]

/-! ## Decoding well-formed frames -/

theorem parseSegments_ok (idents : List Frame) (f2 f3 f4 f5 : Frame) (bufs : List Frame)
    (s2 s3 s4 s5 : Str) (j2 j3 j4 j5 : Json)
    (h2 : frameToString f2 = .ok s2) (hj2 : jsonParse s2 = some j2)
    (h3 : frameToString f3 = .ok s3) (hj3 : jsonParse s3 = some j3)
    (h4 : frameToString f4 = .ok s4) (hj4 : jsonParse s4 = some j4)
    (h5 : frameToString f5 = .ok s5) (hj5 : jsonParse s5 = some j5) :
    parseSegments idents f2 f3 f4 (some f5) (f5 :: bufs) =
      .ok (some (mkMessageJS idents j2 j3 j4 j5 bufs)) := by
  simp only [parseSegments, h2, hj2, h3, hj3, frameToStringU, h5, hj5, h4, hj4,
    List.drop_succ_cons, List.drop_zero]

theorem decode_encode_raw (m : Message) (scheme key : Str)
    (hclean : ∀ f ∈ m.idents, cleanIdent f = true) :
    _decodeFun (Message._encode m scheme key) scheme key =
      .ok (some (mkMessageJS m.idents m.header m.parent_header m.metadata m.content
        m.buffers)) := by
  have hscan : scanIdents (Message._encode m scheme key) =
      .ok (m.idents,
        mkF DELIMITER ::
          mkF (if key = [] then []
            else hmacHex (defaultedScheme scheme) key
              [jsonStringify m.header, jsonStringify m.parent_header,
                jsonStringify m.metadata, jsonStringify m.content]) ::
          mkF (jsonStringify m.header) :: mkF (jsonStringify m.parent_header) ::
          mkF (jsonStringify m.metadata) :: mkF (jsonStringify m.content) :: m.buffers) := by
    exact scanIdents_clean m.idents (mkF DELIMITER) _ hclean rfl
  simp only [_decodeFun, hscan]
  simp only [frameToString_mkF, ne_eq, not_true_eq_false, if_false, List.head?_cons]
  by_cases hkey : key = []
  · rw [if_pos hkey]
    exact parseSegments_ok m.idents _ _ _ _ m.buffers _ _ _ _ m.header m.parent_header
      m.metadata m.content rfl (jsonParse_jsonStringify m.header) rfl
      (jsonParse_jsonStringify m.parent_header) rfl (jsonParse_jsonStringify m.metadata)
      rfl (jsonParse_jsonStringify m.content)
  · rw [if_neg hkey, if_neg hkey]
    simp only [frameToString_mkF, hmacUpdateData]
    rw [if_neg (by simp [mkF])]
    exact parseSegments_ok m.idents _ _ _ _ m.buffers _ _ _ _ m.header m.parent_header
      m.metadata m.content rfl (jsonParse_jsonStringify m.header) rfl
      (jsonParse_jsonStringify m.parent_header) rfl (jsonParse_jsonStringify m.metadata)
      rfl (jsonParse_jsonStringify m.content)

/-! ## Claim C1: encode/decode round-trip -/

/-- C1 as stated is false: for a Message whose ident frame reads as the
delimiter, the decode scan breaks at that ident, the empty signature frame is
then parsed as the header JSON segment, and `Message._decode` throws a
SyntaxError instead of returning the original message. -/
theorem c1_roundtrip_counterexample :
    Message._decode (Message._encode mBadC1 [] []) [] [] = .error jsonSyntaxError ∧
    Message._decode (Message._encode mBadC1 [] []) [] [] ≠ .ok (some mBadC1) := by
  constructor
  · rfl
  · decide

/-- C1 amended: for every Message whose ident frames each convert to text
different from the delimiter and whose header, parent_header, metadata and
content are JS-truthy (JSON objects — the shape the protocol gives them —
always are), decoding the encoding with the same scheme and key returns a
Message equal to the original: idents, header, parent_header, metadata,
content and buffers are all preserved. -/
theorem c1_roundtrip_amended (m : Message) (scheme key : Str)
    (hclean : ∀ f ∈ m.idents, cleanIdent f = true)
    (hfields : nonFalsyFields m = true) :
    Message._decode (Message._encode m scheme key) scheme key = .ok (some m) := by
  have hraw := decode_encode_raw m scheme key hclean
  have hm : mkMessageJS m.idents m.header m.parent_header m.metadata m.content
      m.buffers = m := by
    simp only [nonFalsyFields, Bool.and_eq_true, Bool.not_eq_true'] at hfields
    obtain ⟨⟨⟨hh, hp⟩, hmt⟩, hc⟩ := hfields
    simp [mkMessageJS, jsOrEmptyObj, hh, hp, hmt, hc]
  rw [mdecode_of_raw _ _ _ _ hraw, hm]

/-- Witness: the amended round-trip at a concrete message, scheme and key. -/
theorem c1_roundtrip_amended_witness :
    (∀ f ∈ mW.idents, cleanIdent f = true) ∧ nonFalsyFields mW = true ∧
      Message._decode (Message._encode mW schemeMd5 keyK) schemeMd5 keyK =
        .ok (some mW) :=
  ⟨by decide, by decide, c1_roundtrip_amended mW schemeMd5 keyK (by decide) (by decide)⟩

/-! ## Claim C9: unsigned acceptance with the empty key -/

/-- C9: with `key = ""`, encoding always succeeds and emits the empty string as
the signature frame (first conjunct: the exact frame list, with `mkF []` in the
signature position), and decoding never looks at the signature frame — the
claimed-signature frame is universally quantified, even over frames whose text
conversion would throw — and produces a Message whenever the delimiter is
present and the four JSON segments convert and parse (second conjunct). -/
theorem c9_unsigned_acceptance :
    (∀ (m : Message) (scheme : Str),
      Message._encode m scheme [] =
        m.idents ++ mkF DELIMITER :: mkF [] :: mkF (jsonStringify m.header) ::
          mkF (jsonStringify m.parent_header) :: mkF (jsonStringify m.metadata) ::
          mkF (jsonStringify m.content) :: m.buffers) ∧
    (∀ (idents : List Frame) (d sigF f2 f3 f4 f5 : Frame) (bufs : List Frame)
      (scheme s2 s3 s4 s5 : Str) (j2 j3 j4 j5 : Json),
      (∀ f ∈ idents, cleanIdent f = true) →
      frameToString d = .ok DELIMITER →
      frameToString f2 = .ok s2 → jsonParse s2 = some j2 →
      frameToString f3 = .ok s3 → jsonParse s3 = some j3 →
      frameToString f4 = .ok s4 → jsonParse s4 = some j4 →
      frameToString f5 = .ok s5 → jsonParse s5 = some j5 →
      Message._decode (idents ++ d :: sigF :: f2 :: f3 :: f4 :: f5 :: bufs) scheme [] =
        .ok (some (mkMessageJS idents j2 j3 j4 j5 bufs))) := by
  constructor
  · intro m scheme
    rfl
  · intro idents d sigF f2 f3 f4 f5 bufs scheme s2 s3 s4 s5 j2 j3 j4 j5
    intro hclean hd h2 hj2 h3 hj3 h4 hj4 h5 hj5
    have hscan := scanIdents_clean idents d (sigF :: f2 :: f3 :: f4 :: f5 :: bufs) hclean hd
    apply mdecode_of_raw
    simp only [_decodeFun, hscan, hd, ne_eq, not_true_eq_false, if_false,
      List.head?_cons, eq_self_iff_true, if_true]
    exact parseSegments_ok idents f2 f3 f4 f5 bufs s2 s3 s4 s5 j2 j3 j4 j5
      h2 hj2 h3 hj3 h4 hj4 h5 hj5

/-- Witness: unsigned acceptance at concrete frames — the signature frame is an
oversized buffer, which an unsigned decode never touches. -/
theorem c9_unsigned_acceptance_witness :
    Message._encode emptyMsg schemeMd5 [] =
      mkF DELIMITER :: mkF [] :: mkF objStr :: mkF objStr :: mkF objStr ::
        mkF objStr :: [] ∧
    Message._decode
        ([mkF [99]] ++ mkF DELIMITER :: Frame.mk [1] true :: mkF objStr :: mkF objStr ::
          mkF objStr :: mkF objStr :: [mkF [5]]) schemeMd5 [] =
      .ok (some (mkMessageJS [mkF [99]] (Json.obj []) (Json.obj []) (Json.obj [])
        (Json.obj []) [mkF [5]])) :=
  ⟨c9_unsigned_acceptance.1 emptyMsg schemeMd5,
    c9_unsigned_acceptance.2 [mkF [99]] (mkF DELIMITER) (Frame.mk [1] true) (mkF objStr)
      (mkF objStr) (mkF objStr) (mkF objStr) [mkF [5]] schemeMd5 objStr objStr objStr
      objStr (Json.obj []) (Json.obj []) (Json.obj []) (Json.obj [])
      (by decide) rfl rfl (by decide) rfl (by decide) rfl (by decide) rfl (by decide)⟩

/-! ## Claim C2: JSON parse failure handling -/

theorem parseSegments_err (idents : List Frame) (f2 f3 f4 f5 : Frame)
    (tail : List Frame) (s2 s3 s4 s5 : Str)
    (h2 : frameToString f2 = .ok s2) (h3 : frameToString f3 = .ok s3)
    (h4 : frameToString f4 = .ok s4) (h5 : frameToString f5 = .ok s5)
    (hbad : jsonParse s2 = none ∨ jsonParse s3 = none ∨ jsonParse s5 = none ∨
      jsonParse s4 = none) :
    parseSegments idents f2 f3 f4 (some f5) tail = .error jsonSyntaxError := by
  rcases hbad with hb | hb | hb | hb
  · simp [parseSegments, h2, hb]
  · cases hq2 : jsonParse s2 with
    | none => simp [parseSegments, h2, hq2]
    | some j2 => simp [parseSegments, h2, hq2, h3, hb]
  · cases hq2 : jsonParse s2 with
    | none => simp [parseSegments, h2, hq2]
    | some j2 =>
      cases hq3 : jsonParse s3 with
      | none => simp [parseSegments, h2, hq2, h3, hq3]
      | some j3 => simp [parseSegments, h2, hq2, h3, hq3, frameToStringU, h5, hb]
  · cases hq2 : jsonParse s2 with
    | none => simp [parseSegments, h2, hq2]
    | some j2 =>
      cases hq3 : jsonParse s3 with
      | none => simp [parseSegments, h2, hq2, h3, hq3]
      | some j3 =>
        cases hq5 : jsonParse s5 with
        | none => simp [parseSegments, h2, hq2, h3, hq3, frameToStringU, h5, hq5]
        | some j5 =>
          simp [parseSegments, h2, hq2, h3, hq3, frameToStringU, h5, hq5, h4, hb]

/-- C2 as stated is false: on a frame sequence whose header segment is not
parseable JSON, `Message._decode` does not return the no-message sentinel — the
SyntaxError escapes the catch (its message does not contain `toString`) and
propagates to the caller. -/
theorem c2_json_failure_counterexample :
    Message._decode badJsonFrames [] [] = .error jsonSyntaxError ∧
    Message._decode badJsonFrames [] [] ≠ .ok none := by
  constructor
  · rfl
  · decide

/-- C2 amended: whenever decoding reaches the JSON segments — the key is empty,
or the key is non-empty and the claimed signature frame carries exactly the
digest the decoder recomputes over the four segment frames — and the four JSON
segment frames all convert to text but at least one fails to parse as JSON, the
JSON SyntaxError is raised out of `Message._decode` (it is rethrown by the
catch, whose test matches only messages containing `toString`); the
whole-message decode does fail — no partially-filled Message is produced — but
by an exception, not by the no-message sentinel. -/
theorem c2_json_failure_raises (idents : List Frame) (d f1 f2 f3 f4 f5 : Frame)
    (bufs : List Frame) (scheme key : Str) (s2 s3 s4 s5 : Str)
    (hclean : ∀ f ∈ idents, cleanIdent f = true)
    (hd : frameToString d = .ok DELIMITER)
    (h2 : frameToString f2 = .ok s2) (h3 : frameToString f3 = .ok s3)
    (h4 : frameToString f4 = .ok s4) (h5 : frameToString f5 = .ok s5)
    (hsig : key = [] ∨ frameToString f1 =
      .ok (hmacHex (defaultedScheme scheme) key [f2.data, f3.data, f4.data, f5.data]))
    (hbad : jsonParse s2 = none ∨ jsonParse s3 = none ∨ jsonParse s5 = none ∨
      jsonParse s4 = none) :
    Message._decode (idents ++ d :: f1 :: f2 :: f3 :: f4 :: f5 :: bufs) scheme key =
      .error jsonSyntaxError := by
  have hscan := scanIdents_clean idents d (f1 :: f2 :: f3 :: f4 :: f5 :: bufs) hclean hd
  apply mdecode_rethrow
  · simp only [_decodeFun, hscan, hd, ne_eq, not_true_eq_false, if_false,
      List.head?_cons]
    by_cases hkey : key = []
    · rw [if_pos hkey]
      exact parseSegments_err idents f2 f3 f4 f5 (f5 :: bufs) s2 s3 s4 s5 h2 h3 h4 h5 hbad
    · rcases hsig with hsig | hsig
      · exact absurd hsig hkey
      · rw [if_neg hkey, hsig]
        simp only [hmacUpdateData]
        rw [if_neg (by simp)]
        exact parseSegments_err idents f2 f3 f4 f5 (f5 :: bufs) s2 s3 s4 s5 h2 h3 h4 h5 hbad
  · decide

/-- Witness: the amended C2 on an unsigned decode with an unparseable header,
and on a signed decode whose signature verifies but whose metadata segment is
unparseable. -/
theorem c2_json_failure_raises_witness :
    jsonParse [] = none ∧
      Message._decode ([mkF [99]] ++ mkF DELIMITER :: mkF [] :: mkF [] :: mkF objStr ::
        mkF objStr :: mkF objStr :: []) [] [] = .error jsonSyntaxError ∧
      Message._decode (mkF DELIMITER ::
          mkF (hmacHex (defaultedScheme []) keyA [objStr, objStr, [], objStr]) ::
          mkF objStr :: mkF objStr :: mkF [] :: mkF objStr :: []) [] keyA =
        .error jsonSyntaxError :=
  ⟨rfl,
    c2_json_failure_raises [mkF [99]] (mkF DELIMITER) (mkF []) (mkF []) (mkF objStr)
      (mkF objStr) (mkF objStr) [] [] [] [] objStr objStr objStr (by decide) rfl rfl rfl
      rfl rfl (Or.inl rfl) (Or.inl rfl),
    c2_json_failure_raises [] (mkF DELIMITER)
      (mkF (hmacHex (defaultedScheme []) keyA [objStr, objStr, [], objStr]))
      (mkF objStr) (mkF objStr) (mkF []) (mkF objStr) [] [] keyA objStr objStr [] objStr
      (by decide) rfl rfl rfl rfl rfl (Or.inr rfl)
      (Or.inr (Or.inr (Or.inr rfl)))⟩

/-! ## Claim C3: malformed frame sequences -/

theorem decodeFun_of_scan_error (frames : List Frame) (scheme key : Str) (e : JsError)
    (hscan : scanIdents frames = .error e) :
    _decodeFun frames scheme key = .error e := by
  simp [_decodeFun, hscan]

/-- C3 as stated is false at the boundary: a delimiter followed by exactly 4
frames (fewer than the 5 the claim covers) passes the source's
`messageFrames.length - i < 5` guard, and with a non-empty key
`hmac.update(messageFrames[i + 5])` receives `undefined` and throws a TypeError
that propagates out of `Message._decode` instead of the claimed null. -/
theorem c3_malformed_counterexample :
    Message._decode fourAfterDelim [] keyA = .error hmacTypeError ∧
    Message._decode fourAfterDelim [] keyA ≠ .ok none := by
  constructor
  · rfl
  · decide

/-- C3 amended: a frame sequence in which no frame converts to the delimiter
text decodes to the no-message sentinel without raising, for every scheme and
key (first conjunct); a frame sequence with a delimiter followed by fewer than
4 frames likewise decodes to the no-message sentinel without raising (second
conjunct).  At exactly 4 frames after the delimiter the source's off-by-one
guard admits the sequence and behavior depends on the key (see the
counterexample). -/
theorem c3_malformed_no_message :
    (∀ (frames : List Frame) (scheme key : Str),
      (∀ f ∈ frames, notDelimIdent f = true) →
      Message._decode frames scheme key = .ok none) ∧
    (∀ (idents : List Frame) (d : Frame) (rest : List Frame) (scheme key : Str),
      (∀ f ∈ idents, notDelimIdent f = true) →
      frameToString d = .ok DELIMITER →
      rest.length < 4 →
      Message._decode (idents ++ d :: rest) scheme key = .ok none) := by
  constructor
  · intro frames scheme key h
    rcases scanIdents_notDelim_all frames h with hscan | hscan
    · exact mdecode_of_raw _ _ _ _ (by simp [_decodeFun, hscan])
    · exact mdecode_catch_toString _ _ _ (decodeFun_of_scan_error _ _ _ _ hscan)
  · intro idents d rest scheme key h hd hlen
    rcases scanIdents_notDelim_append idents d rest h hd with hscan | hscan
    · rcases rest with _ | ⟨a, _ | ⟨b, _ | ⟨c, _ | ⟨e, tl⟩⟩⟩⟩
      · exact mdecode_of_raw _ _ _ _ (by simp [_decodeFun, hscan])
      · exact mdecode_of_raw _ _ _ _ (by simp [_decodeFun, hscan])
      · exact mdecode_of_raw _ _ _ _ (by simp [_decodeFun, hscan])
      · exact mdecode_of_raw _ _ _ _ (by simp [_decodeFun, hscan])
      · simp only [List.length_cons] at hlen
        omega
    · exact mdecode_catch_toString _ _ _ (decodeFun_of_scan_error _ _ _ _ hscan)

/-- Witness: both amended conjuncts at concrete inputs — a sequence with no
delimiter (containing an oversized frame) and a delimiter followed by only a
signature frame, under a non-empty key. -/
theorem c3_malformed_no_message_witness :
    Message._decode [mkF [104, 105], Frame.mk [0] true] schemeMd5 keyK = .ok none ∧
      Message._decode ([mkF [99]] ++ mkF DELIMITER :: [mkF []]) schemeMd5 keyK =
        .ok none :=
  ⟨c3_malformed_no_message.1 [mkF [104, 105], Frame.mk [0] true] schemeMd5 keyK
    (by decide),
    c3_malformed_no_message.2 [mkF [99]] (mkF DELIMITER) [mkF []] schemeMd5 keyK
      (by decide) rfl (by decide)⟩

/-! ## Claim C4: decoding under a different key -/

/-- C4 as stated is false for pathological idents: a Message whose ident frames
spoof a delimiter, a signature valid under the decoding key `keyB` and four JSON
segments decodes under `keyB` to a (wrong) Message, not to the no-message
sentinel, even though the genuine digests under the two distinct non-empty keys
differ. -/
theorem c4_signature_counterexample :
    hmacHex SCHEME_SHA256 keyA [objStr, objStr, objStr, objStr] ≠
      hmacHex SCHEME_SHA256 keyB [objStr, objStr, objStr, objStr] ∧
    keyA ≠ [] ∧ keyB ≠ [] ∧ keyA ≠ keyB ∧
    Message._decode (Message._encode mC4 [] keyA) [] keyB = .ok (some mC4decoded) ∧
    Message._decode (Message._encode mC4 [] keyA) [] keyB ≠ .ok none := by
  refine ⟨by decide, by decide, by decide, by decide, rfl, by decide⟩

/-- C4 amended: for every Message none of whose ident frames converts to the
delimiter text, every scheme, and every pair of non-empty keys whose digests
over the four serialized JSON members differ, decoding the frames encoded with
the first key using the second yields the no-message sentinel, because the
computed hex digest is compared to the claimed signature frame by exact string
equality. -/
theorem c4_signature_rejection_amended (m : Message) (scheme keyOne keyTwo : Str)
    (hid : ∀ f ∈ m.idents, notDelimIdent f = true)
    (h1 : keyOne ≠ []) (h2 : keyTwo ≠ [])
    (hdiff : hmacHex (defaultedScheme scheme) keyOne
        [jsonStringify m.header, jsonStringify m.parent_header,
          jsonStringify m.metadata, jsonStringify m.content] ≠
      hmacHex (defaultedScheme scheme) keyTwo
        [jsonStringify m.header, jsonStringify m.parent_header,
          jsonStringify m.metadata, jsonStringify m.content]) :
    Message._decode (Message._encode m scheme keyOne) scheme keyTwo = .ok none := by
  have henc : Message._encode m scheme keyOne =
      m.idents ++ mkF DELIMITER ::
        mkF (hmacHex (defaultedScheme scheme) keyOne
          [jsonStringify m.header, jsonStringify m.parent_header,
            jsonStringify m.metadata, jsonStringify m.content]) ::
        mkF (jsonStringify m.header) :: mkF (jsonStringify m.parent_header) ::
        mkF (jsonStringify m.metadata) :: mkF (jsonStringify m.content) :: m.buffers := by
    simp [Message._encode, h1]
  rw [henc]
  rcases scanIdents_notDelim_append m.idents (mkF DELIMITER)
      (mkF (hmacHex (defaultedScheme scheme) keyOne
          [jsonStringify m.header, jsonStringify m.parent_header,
            jsonStringify m.metadata, jsonStringify m.content]) ::
        mkF (jsonStringify m.header) :: mkF (jsonStringify m.parent_header) ::
        mkF (jsonStringify m.metadata) :: mkF (jsonStringify m.content) :: m.buffers)
      hid rfl with hscan | hscan
  · apply mdecode_of_raw
    simp only [_decodeFun, hscan, frameToString_mkF, ne_eq, not_true_eq_false, if_false,
      List.head?_cons]
    rw [if_neg h2]
    simp only [hmacUpdateData, mkF]
    rw [if_pos (fun hc => hdiff hc.symm)]
  · exact mdecode_catch_toString _ _ _ (decodeFun_of_scan_error _ _ _ _ hscan)

/-- Witness: the amended C4 at a concrete message and keys whose model digests
differ. -/
theorem c4_signature_rejection_amended_witness :
    keyA ≠ [] ∧ keyB ≠ [] ∧
      Message._decode (Message._encode emptyMsg [] keyA) [] keyB = .ok none :=
  ⟨by decide, by decide,
    c4_signature_rejection_amended emptyMsg [] keyA keyB (by decide) (by decide)
      (by decide) (by decide)⟩

/-! ## Claim C5: the toString catch discriminates failure classes -/

theorem scanIdents_clean_error (idents : List Frame) (f : Frame) (rest : List Frame)
    (e : JsError) (hclean : ∀ g ∈ idents, cleanIdent g = true)
    (hf : frameToString f = .error e) :
    scanIdents (idents ++ f :: rest) = .error e := by
  induction idents with
  | nil =>
    rw [List.nil_append, scanIdents, hf]
  | cons g t ih =>
    have hg := hclean g (by simp)
    unfold cleanIdent at hg
    cases hgs : frameToString g with
    | error err =>
      rw [hgs] at hg
      cases hg
    | ok s =>
      rw [hgs] at hg
      have hs : ¬(s = DELIMITER) := by simpa using hg
      rw [List.cons_append, scanIdents, hgs]
      simp only []
      rw [if_neg hs, ih (fun x hx => hclean x (by simp [hx]))]

/-- C5 as stated is false: the catch in `Message._decode` is the substring test
`err.message.indexOf("toString")`, strictly broader than the oversized-frame
conversion class the claim names.  At a delimiter followed by exactly 4 frames
with an empty key and parseable leading segments, raw decoding throws the
`undefined.toString()` TypeError — a different error than the oversized-frame
failure, and no frame in the sequence is oversized — yet `Message._decode`
swallows it and returns the no-message sentinel instead of propagating it
unchanged. -/
theorem c5_catch_class_counterexample :
    _decodeFun fourAfterDelim [] [] = .error undefinedToStringError ∧
    undefinedToStringError ≠ toStringError ∧
    (∀ f ∈ fourAfterDelim, f.oversized = false) ∧
    Message._decode fourAfterDelim [] [] = .ok none :=
  ⟨rfl, by decide, by decide, rfl⟩

/-- C5 amended: `Message._decode` swallows exactly the failure class whose
exception message contains `toString` — which contains the oversized-frame
conversion failure the workaround targets, but is broader (see the
counterexample).  First conjunct: every failure raised during raw decoding whose
message contains `toString` is caught and the no-message sentinel is returned.
Second conjunct: every failure whose message lacks `toString` propagates to the
caller unchanged.  Third conjunct: the oversized class is real and caught — an
oversized frame reached by the ident scan makes raw decoding throw the toString
error, and `Message._decode` returns the no-message sentinel for it, for any
scheme and key. -/
theorem c5_tostring_caught_others_propagate :
    (∀ (frames : List Frame) (scheme key : Str) (e : JsError),
      _decodeFun frames scheme key = .error e →
      indexOfSub (strCodes "toString") e.message ≠ -1 →
      Message._decode frames scheme key = .ok none) ∧
    (∀ (frames : List Frame) (scheme key : Str) (e : JsError),
      _decodeFun frames scheme key = .error e →
      indexOfSub (strCodes "toString") e.message = -1 →
      Message._decode frames scheme key = .error e) ∧
    (∀ (idents : List Frame) (f : Frame) (rest : List Frame) (scheme key : Str),
      (∀ g ∈ idents, cleanIdent g = true) →
      f.oversized = true →
      _decodeFun (idents ++ f :: rest) scheme key = .error toStringError ∧
      Message._decode (idents ++ f :: rest) scheme key = .ok none) := by
  refine ⟨?_, ?_, ?_⟩
  · intro frames scheme key e h hmsg
    rw [Message._decode, h]
    simp only []
    rw [if_neg hmsg]
  · intro frames scheme key e h hmsg
    exact mdecode_rethrow frames scheme key e h hmsg
  · intro idents f rest scheme key hclean hover
    have hf : frameToString f = .error toStringError := by
      simp [frameToString, hover]
    have hscan := scanIdents_clean_error idents f rest toStringError hclean hf
    have hraw := decodeFun_of_scan_error (idents ++ f :: rest) scheme key toStringError hscan
    exact ⟨hraw, mdecode_catch_toString _ _ _ hraw⟩

/-- Witness: all three conjuncts at concrete inputs — a caught oversized-frame
failure, a propagated JSON SyntaxError, and the oversized scenario end to end. -/
theorem c5_tostring_caught_others_propagate_witness :
    Message._decode [Frame.mk [0] true] schemeMd5 keyK = .ok none ∧
      Message._decode badJsonFrames [] [] = .error jsonSyntaxError ∧
      Message._decode ([mkF [99]] ++ Frame.mk [0] true :: [mkF [1]]) schemeMd5 keyK =
        .ok none :=
  ⟨c5_tostring_caught_others_propagate.1 [Frame.mk [0] true] schemeMd5 keyK
      toStringError (by decide) (by decide),
    c5_tostring_caught_others_propagate.2.1 badJsonFrames [] [] jsonSyntaxError
      (by decide) (by decide),
    (c5_tostring_caught_others_propagate.2.2 [mkF [99]] (Frame.mk [0] true) [mkF [1]]
      schemeMd5 keyK (by decide) rfl).2⟩


/-! ## Claim C6: reply linkage in respond -/

theorem jsonGet_obj (fs : List (Str × JVal)) (k : Str) :
    jsonGet (Json.obj fs) k = jsonGet.lookupField fs k := rfl

theorem mkRespondFields_msg_id (fid mt : Str) (u s v : Option JVal) :
    jsonGet.lookupField (mkRespondFields fid mt u s v) (strCodes "msg_id") =
      some (JVal.str fid) := by
  simp [mkRespondFields, jsonGet.lookupField]

theorem mkRespondFields_username (fid mt : Str) (u s v : Option JVal) :
    jsonGet.lookupField (mkRespondFields fid mt u s v) (strCodes "username") = u := by
  have d1 : (strCodes "msg_id" = strCodes "username") = False := by decide
  have d2 : (strCodes "session" = strCodes "username") = False := by decide
  have d3 : (strCodes "msg_type" = strCodes "username") = False := by decide
  have d4 : (strCodes "version" = strCodes "username") = False := by decide
  rcases u with _ | a <;> rcases s with _ | b <;> rcases v with _ | c <;>
    simp [mkRespondFields, jsonGet.lookupField, d1, d2, d3, d4]

theorem mkRespondFields_session (fid mt : Str) (u s v : Option JVal) :
    jsonGet.lookupField (mkRespondFields fid mt u s v) (strCodes "session") = s := by
  have d1 : (strCodes "msg_id" = strCodes "session") = False := by decide
  have d2 : (strCodes "username" = strCodes "session") = False := by decide
  have d3 : (strCodes "msg_type" = strCodes "session") = False := by decide
  have d4 : (strCodes "version" = strCodes "session") = False := by decide
  rcases u with _ | a <;> rcases s with _ | b <;> rcases v with _ | c <;>
    simp [mkRespondFields, jsonGet.lookupField, d1, d2, d3, d4]

theorem mkRespondFields_msg_type (fid mt : Str) (u s v : Option JVal) :
    jsonGet.lookupField (mkRespondFields fid mt u s v) (strCodes "msg_type") =
      some (JVal.str mt) := by
  have d1 : (strCodes "msg_id" = strCodes "msg_type") = False := by decide
  have d2 : (strCodes "username" = strCodes "msg_type") = False := by decide
  have d3 : (strCodes "session" = strCodes "msg_type") = False := by decide
  rcases u with _ | a <;> rcases s with _ | b <;> rcases v with _ | c <;>
    simp [mkRespondFields, jsonGet.lookupField, d1, d2, d3]

theorem mkRespondFields_version (fid mt : Str) (u s v : Option JVal) :
    jsonGet.lookupField (mkRespondFields fid mt u s v) (strCodes "version") = v := by
  have d1 : (strCodes "msg_id" = strCodes "version") = False := by decide
  have d2 : (strCodes "username" = strCodes "version") = False := by decide
  have d3 : (strCodes "session" = strCodes "version") = False := by decide
  have d4 : (strCodes "msg_type" = strCodes "version") = False := by decide
  rcases u with _ | a <;> rcases s with _ | b <;> rcases v with _ | c <;>
    simp [mkRespondFields, jsonGet.lookupField, d1, d2, d3, d4]

/-- C6: `respond` links the reply to the request.  Under the hypothesis that the
request has a defined (object) header, the reply produced by `respond` has:
`parent_header` equal to the request header verbatim; the request's idents; a
header whose `msg_id` is the freshly generated id (and therefore differs from
the request's `msg_id` whenever the generator meets its freshness contract),
whose `username` and `session` equal the request header's, whose `msg_type` is
the caller-supplied type, and whose `version` is inherited from a truthy
request-header version when no protocol version is supplied and is overridden by
a supplied non-empty protocol version; `content` and `metadata` default to empty
objects when omitted. -/
theorem c6_respond_links_reply (m : Message) (hf : List (Str × JVal))
    (freshMsgId messageType : Str) (content metadata : Option Json)
    (pv : Option Str) (hobj : m.header = Json.obj hf) :
    (Message.respond m freshMsgId messageType content metadata pv).parent_header =
        m.header ∧
    (Message.respond m freshMsgId messageType content metadata pv).idents = m.idents ∧
    jsonGet (Message.respond m freshMsgId messageType content metadata pv).header
        (strCodes "msg_id") = some (JVal.str freshMsgId) ∧
    (jsonGet m.header (strCodes "msg_id") ≠ some (JVal.str freshMsgId) →
      jsonGet (Message.respond m freshMsgId messageType content metadata pv).header
          (strCodes "msg_id") ≠ jsonGet m.header (strCodes "msg_id")) ∧
    jsonGet (Message.respond m freshMsgId messageType content metadata pv).header
        (strCodes "username") = jsonGet m.header (strCodes "username") ∧
    jsonGet (Message.respond m freshMsgId messageType content metadata pv).header
        (strCodes "session") = jsonGet m.header (strCodes "session") ∧
    jsonGet (Message.respond m freshMsgId messageType content metadata pv).header
        (strCodes "msg_type") = some (JVal.str messageType) ∧
    (∀ p, pv = some p → p ≠ [] →
      jsonGet (Message.respond m freshMsgId messageType content metadata pv).header
          (strCodes "version") = some (JVal.str p)) ∧
    (∀ v, pv = none → jsonGet m.header (strCodes "version") = some v →
      jvTruthy v = true →
      jsonGet (Message.respond m freshMsgId messageType content metadata pv).header
          (strCodes "version") = some v) ∧
    (content = none →
      (Message.respond m freshMsgId messageType content metadata pv).content =
        Json.obj []) ∧
    (metadata = none →
      (Message.respond m freshMsgId messageType content metadata pv).metadata =
        Json.obj []) := by
  have hhead : (Message.respond m freshMsgId messageType content metadata pv).header =
      Json.obj (respondHeaderFields m freshMsgId messageType pv) := rfl
  have hmid := mkRespondFields_msg_id freshMsgId messageType
    (jsonGet m.header (strCodes "username")) (jsonGet m.header (strCodes "session"))
    (respondFinalVersion m pv)
  refine ⟨rfl, rfl, ?_, ?_, ?_, ?_, ?_, ?_, ?_, ?_, ?_⟩
  · rw [hhead, jsonGet_obj, respondHeaderFields, hmid]
  · intro hne hcontra
    apply hne
    rw [← hcontra, hhead, jsonGet_obj, respondHeaderFields, hmid]
  · rw [hhead, jsonGet_obj, respondHeaderFields, mkRespondFields_username]
  · rw [hhead, jsonGet_obj, respondHeaderFields, mkRespondFields_session]
  · rw [hhead, jsonGet_obj, respondHeaderFields, mkRespondFields_msg_type]
  · intro p hpv hp
    rw [hhead, jsonGet_obj, respondHeaderFields, mkRespondFields_version,
      respondFinalVersion.eq_def, hpv]
    simp [hp]
  · intro v hpv hver htv
    have htruthy : jsTruthy m.header = true := by
      rw [hobj]
      rfl
    rw [hhead, jsonGet_obj, respondHeaderFields, mkRespondFields_version,
      respondFinalVersion.eq_def, hpv]
    simp only []
    rw [respondInheritedVersion, if_pos htruthy, hver]
    simp [htv]
  · intro hc
    rw [hc]
    rfl
  · intro hm
    rw [hm]
    rfl

/-- Witness: the reply linkage at a concrete request with username, session, a
truthy inherited version, and omitted content and metadata. -/
theorem c6_respond_links_reply_witness :
    (Message.respond
        ⟨[mkF [7]],
          Json.obj [(strCodes "msg_id", JVal.str (strCodes "old")),
            (strCodes "username", JVal.str (strCodes "u")),
            (strCodes "session", JVal.str (strCodes "s")),
            (strCodes "version", JVal.str (strCodes "5.3"))],
          Json.obj [], Json.obj [], Json.obj [], []⟩
        (strCodes "new") (strCodes "foo_reply") none none none).parent_header =
      Json.obj [(strCodes "msg_id", JVal.str (strCodes "old")),
        (strCodes "username", JVal.str (strCodes "u")),
        (strCodes "session", JVal.str (strCodes "s")),
        (strCodes "version", JVal.str (strCodes "5.3"))] ∧
    jsonGet (Message.respond
        ⟨[mkF [7]],
          Json.obj [(strCodes "msg_id", JVal.str (strCodes "old")),
            (strCodes "username", JVal.str (strCodes "u")),
            (strCodes "session", JVal.str (strCodes "s")),
            (strCodes "version", JVal.str (strCodes "5.3"))],
          Json.obj [], Json.obj [], Json.obj [], []⟩
        (strCodes "new") (strCodes "foo_reply") none none none).header
      (strCodes "version") = some (JVal.str (strCodes "5.3")) := by
  constructor
  · exact (c6_respond_links_reply _ _ (strCodes "new") (strCodes "foo_reply")
      none none none rfl).1
  · exact (c6_respond_links_reply _ _ (strCodes "new") (strCodes "foo_reply")
      none none none rfl).2.2.2.2.2.2.2.2.1 (JVal.str (strCodes "5.3")) rfl
      (by decide) (by decide)

/-! ## Socket bookkeeping lemmas -/

theorem removeFirst_split (L : List Entry) (l : Nat) (e : Entry) (rest : List Entry)
    (h : removeFirst L l = some (e, rest)) :
    ∃ p q, L = p ++ e :: q ∧ rest = p ++ q ∧ (∀ x ∈ p, x.unwrapped ≠ l) ∧
      e.unwrapped = l := by
  induction L generalizing rest with
  | nil => simp [removeFirst] at h
  | cons a t ih =>
    rw [removeFirst] at h
    by_cases ha : a.unwrapped = l
    · rw [if_pos ha] at h
      injection h with h2
      injection h2 with he hr
      refine ⟨[], t, ?_, ?_, by simp, ?_⟩
      · rw [← he]
        simp
      · rw [← hr]
        simp
      · rw [← he]
        exact ha
    · rw [if_neg ha] at h
      cases hrec : removeFirst t l with
      | none => rw [hrec] at h; cases h
      | some pr =>
        obtain ⟨f, rest2⟩ := pr
        rw [hrec] at h
        injection h with h2
        injection h2 with he hr
        obtain ⟨p, q, hL, hR, hp, hu⟩ := ih rest2 (by rw [he] at hrec; exact hrec)
        refine ⟨a :: p, q, ?_, ?_, ?_, hu⟩
        · rw [hL]
          simp
        · rw [← hr, hR]
          simp
        intro x hx
        rcases List.mem_cons.mp hx with hx | hx
        · rw [hx]; exact ha
        · exact hp x hx

theorem removeFirstWid_split (p q : List Entry) (e : Entry)
    (hp : ∀ x ∈ p, x.wid ≠ e.wid) :
    removeFirstWid (p ++ e :: q) e.wid = p ++ q := by
  induction p with
  | nil => simp [removeFirstWid]
  | cons a t ih =>
    rw [List.cons_append, removeFirstWid, if_neg (hp a (by simp)),
      ih (fun x hx => hp x (by simp [hx]))]
    rfl

theorem stateOK_init (scheme key : Str) : StateOK (initSocket scheme key) := by
  refine ⟨rfl, by simp [initSocket], by simp [initSocket]⟩

theorem stateOK_push (s : SocketState) (e : Entry) (hok : StateOK s)
    (hw : e.wid = s.nextWid) :
    StateOK ⟨s.scheme, s.key, s.listeners ++ [e], s.transport ++ [e], s.nextWid + 1⟩ := by
  obtain ⟨ht, hnd, hb⟩ := hok
  refine ⟨by rw [ht], ?_, ?_⟩
  · rw [List.map_append]
    rw [List.nodup_append]
    refine ⟨hnd, by simp, ?_⟩
    intro w hwm hwm2
    simp only [List.map_cons, List.map_nil, List.mem_cons, List.not_mem_nil, or_false] at hwm2
    obtain ⟨x, hx, hxw⟩ := List.mem_map.mp hwm
    have := hb x hx
    omega
  · intro x hx
    show x.wid < s.nextWid + 1
    rcases List.mem_append.mp hx with hx | hx
    · have := hb x hx
      omega
    · simp only [List.mem_singleton] at hx
      rw [hx, hw]
      omega

theorem stateOK_on (s : SocketState) (l : Nat) (hok : StateOK s) :
    StateOK (Socket.on s l) :=
  stateOK_push s ⟨l, s.nextWid, false⟩ hok rfl

theorem stateOK_once (s : SocketState) (l : Nat) (hok : StateOK s) :
    StateOK (Socket.once s l) :=
  stateOK_push s ⟨l, s.nextWid, true⟩ hok rfl

theorem stateOK_removeListener (s : SocketState) (l : Nat) (hok : StateOK s) :
    StateOK (Socket.removeListener s l) := by
  obtain ⟨ht, hnd, hb⟩ := hok
  unfold Socket.removeListener
  cases hrf : removeFirst s.listeners l with
  | none => exact ⟨ht, hnd, hb⟩
  | some pr =>
    obtain ⟨e, rest⟩ := pr
    obtain ⟨p, q, hL, hR, hp, hu⟩ := removeFirst_split s.listeners l e rest hrf
    have hpw : ∀ x ∈ p, x.wid ≠ e.wid := by
      intro x hx
      have hnd2 := hnd
      rw [hL, List.map_append, List.map_cons, List.nodup_append] at hnd2
      obtain ⟨_, _, hdisj⟩ := hnd2
      intro hcontra
      exact hdisj (List.mem_map.mpr ⟨x, hx, rfl⟩) (by rw [← hcontra] at *; simp [hcontra])
    have hsub : List.Sublist rest s.listeners := by
      rw [hL, hR]
      exact List.Sublist.append_left (List.sublist_cons_self e q) p
    refine ⟨?_, ?_, ?_⟩
    · simp only []
      rw [ht, hL, removeFirstWid_split p q e hpw, ← hR]
    · exact List.Nodup.sublist (List.Sublist.map Entry.wid hsub) hnd
    · intro x hx
      exact hb x (hsub.mem hx)

theorem stateOK_removeAll (s : SocketState) (ev : Option Str) (hok : StateOK s) :
    StateOK (Socket.removeAllListeners s ev) := by
  cases ev with
  | none => exact ⟨rfl, List.nodup_nil, fun x hx => nomatch hx⟩
  | some evv =>
    have hred : Socket.removeAllListeners s (some evv) =
        if evv = strCodes "message" then { s with listeners := [], transport := [] }
        else s := rfl
    rw [hred]
    by_cases hev : evv = strCodes "message"
    · rw [if_pos hev]
      exact ⟨rfl, List.nodup_nil, fun x hx => nomatch hx⟩
    · rw [if_neg hev]
      exact hok

theorem stateOK_runWrapper (s : SocketState) (e : Entry) (frames : List Frame)
    (behavior : Nat → Option JsError) (hok : StateOK s) :
    StateOK (runWrapper s e frames behavior).1 := by
  unfold runWrapper
  cases Message._decode frames s.scheme s.key with
  | error err => exact hok
  | ok r =>
    cases r with
    | none =>
      simp only []
      by_cases ho : e.once = true
      · rw [if_pos ho]
        exact stateOK_removeListener s e.unwrapped hok
      · rw [if_neg ho]
        exact hok
    | some msg =>
      simp only []
      by_cases ho : e.once = true
      · rw [if_pos ho]
        cases behavior e.unwrapped with
        | none => exact stateOK_removeListener s e.unwrapped hok
        | some err => exact stateOK_removeListener s e.unwrapped hok
      · rw [if_neg ho]
        cases behavior e.unwrapped with
        | none => exact hok
        | some err => exact hok

theorem stateOK_emitGo (frames : List Frame) (behavior : Nat → Option JsError) :
    ∀ (snapshot : List Entry) (s : SocketState), StateOK s →
      StateOK (emitGo s snapshot frames behavior).1 := by
  intro snapshot
  induction snapshot with
  | nil => intro s hok; exact hok
  | cons e rest ih =>
    intro s hok
    rw [emitGo]
    cases hrw : runWrapper s e frames behavior with
    | mk s1 pr =>
      obtain ⟨inv, err?⟩ := pr
      have hs1 : StateOK s1 := by
        have := stateOK_runWrapper s e frames behavior hok
        rw [hrw] at this
        exact this
      cases err? with
      | some err => exact hs1
      | none =>
        cases hgo : emitGo s1 rest frames behavior with
        | mk s2 pr2 =>
          obtain ⟨invs, err2⟩ := pr2
          have h2 := ih s1 hs1
          rw [hgo] at h2
          simp only []
          rw [hgo]
          exact h2

theorem stateOK_applyOp (s : SocketState) (hok : StateOK s) :
    ∀ op : SockOp, StateOK (applyOp s op)
  | .on l => stateOK_on s l hok
  | .addListener l => stateOK_on s l hok
  | .once l => stateOK_once s l hok
  | .removeListener l => stateOK_removeListener s l hok
  | .removeAllListeners ev => stateOK_removeAll s ev hok
  | .deliver frames behavior => stateOK_emitGo frames behavior s.transport s hok

theorem stateOK_applyOps (ops : List SockOp) :
    ∀ s, StateOK s → StateOK (applyOps ops s) := by
  induction ops with
  | nil => intro s hok; exact hok
  | cons op rest ih => intro s hok; exact ih (applyOp s op) (stateOK_applyOp s hok op)

/-! ## Claim C7: listener bookkeeping invariant -/

/-- C7: for every sequence of on/addListener/once/removeListener/
removeAllListeners calls and message deliveries from a fresh socket, the
transport handler list for the message event and the wrapper mapping
`_jmp._listeners` stay in one-to-one correspondence (they are equal as lists of
entries, so every registered wrapper has exactly one mapping entry and vice
versa); in particular, registering two listeners and removing both by
original-callback identity, and a bare `removeAllListeners()`, each leave the
mapping empty and the transport with zero message handlers. -/
theorem c7_listener_bookkeeping :
    (∀ (scheme key : Str) (ops : List SockOp),
      (applyOps ops (initSocket scheme key)).transport =
        (applyOps ops (initSocket scheme key)).listeners) ∧
    (applyOps [SockOp.on 0, SockOp.on 1, SockOp.removeListener 0, SockOp.removeListener 1]
      (initSocket [] [])).listeners = [] ∧
    (applyOps [SockOp.on 0, SockOp.on 1, SockOp.removeListener 0, SockOp.removeListener 1]
      (initSocket [] [])).transport = [] ∧
    (applyOps [SockOp.on 0, SockOp.once 1, SockOp.removeAllListeners none]
      (initSocket [] [])).listeners = [] ∧
    (applyOps [SockOp.on 0, SockOp.once 1, SockOp.removeAllListeners none]
      (initSocket [] [])).transport = [] := by
  refine ⟨?_, rfl, rfl, rfl, rfl⟩
  intro scheme key ops
  exact (stateOK_applyOps ops (initSocket scheme key) (stateOK_init scheme key)).1

/-! ## Claim C10: duplicate registrations and removal by identity -/

theorem applyOps_replicate_on (l : Nat) :
    ∀ (n : Nat) (s : SocketState),
      (applyOps (List.replicate n (SockOp.on l)) s).scheme = s.scheme ∧
      (applyOps (List.replicate n (SockOp.on l)) s).key = s.key ∧
      (applyOps (List.replicate n (SockOp.on l)) s).listeners =
        s.listeners ++ (List.range' s.nextWid n).map (fun i => ⟨l, i, false⟩) ∧
      (applyOps (List.replicate n (SockOp.on l)) s).transport =
        s.transport ++ (List.range' s.nextWid n).map (fun i => ⟨l, i, false⟩) ∧
      (applyOps (List.replicate n (SockOp.on l)) s).nextWid = s.nextWid + n := by
  intro n
  induction n with
  | zero =>
    intro s
    refine ⟨rfl, rfl, by simp [applyOps], by simp [applyOps], rfl⟩
  | succ n ih =>
    intro s
    rw [List.replicate_succ]
    rw [show applyOps (SockOp.on l :: List.replicate n (SockOp.on l)) s =
      applyOps (List.replicate n (SockOp.on l)) (Socket.on s l) from rfl]
    obtain ⟨h1, h2, h3, h4, h5⟩ := ih (Socket.on s l)
    refine ⟨by rw [h1]; rfl, by rw [h2]; rfl, ?_, ?_, ?_⟩
    · rw [h3]
      show (s.listeners ++ [⟨l, s.nextWid, false⟩]) ++
        (List.range' (s.nextWid + 1) n).map (fun i => ⟨l, i, false⟩) = _
      rw [List.append_assoc, List.range'_succ s.nextWid n 1, List.map_cons]
      rfl
    · rw [h4]
      show (s.transport ++ [⟨l, s.nextWid, false⟩]) ++
        (List.range' (s.nextWid + 1) n).map (fun i => ⟨l, i, false⟩) = _
      rw [List.append_assoc, List.range'_succ s.nextWid n 1, List.map_cons]
      rfl
    · rw [h5]
      show s.nextWid + 1 + n = s.nextWid + (n + 1)
      omega

theorem removeListener_scheme (s : SocketState) (l : Nat) :
    (Socket.removeListener s l).scheme = s.scheme := by
  unfold Socket.removeListener
  cases removeFirst s.listeners l with
  | none => rfl
  | some pr =>
    obtain ⟨e, rest⟩ := pr
    rfl

theorem removeListener_key (s : SocketState) (l : Nat) :
    (Socket.removeListener s l).key = s.key := by
  unfold Socket.removeListener
  cases removeFirst s.listeners l with
  | none => rfl
  | some pr =>
    obtain ⟨e, rest⟩ := pr
    rfl

theorem applyOps_replicate_remove (l : Nat) :
    ∀ (k c w : Nat) (s : SocketState),
      s.listeners = (List.range' w c).map (fun i => ⟨l, i, false⟩) →
      s.transport = (List.range' w c).map (fun i => ⟨l, i, false⟩) →
      k ≤ c →
      (applyOps (List.replicate k (SockOp.removeListener l)) s).scheme = s.scheme ∧
      (applyOps (List.replicate k (SockOp.removeListener l)) s).key = s.key ∧
      (applyOps (List.replicate k (SockOp.removeListener l)) s).listeners =
        (List.range' (w + k) (c - k)).map (fun i => ⟨l, i, false⟩) ∧
      (applyOps (List.replicate k (SockOp.removeListener l)) s).transport =
        (List.range' (w + k) (c - k)).map (fun i => ⟨l, i, false⟩) := by
  intro k
  induction k with
  | zero =>
    intro c w s hl htr hk
    refine ⟨rfl, rfl, by simpa using hl, by simpa using htr⟩
  | succ k ih =>
    intro c w s hl htr hk
    cases c with
    | zero => omega
    | succ c =>
      have hl2 : s.listeners =
          (⟨l, w, false⟩ : Entry) :: (List.range' (w + 1) c).map (fun i => ⟨l, i, false⟩) := by
        rw [hl, List.range'_succ w c 1, List.map_cons]
      have htr2 : s.transport =
          (⟨l, w, false⟩ : Entry) :: (List.range' (w + 1) c).map (fun i => ⟨l, i, false⟩) := by
        rw [htr, List.range'_succ w c 1, List.map_cons]
      have hrf : removeFirst s.listeners l =
          some (⟨l, w, false⟩, (List.range' (w + 1) c).map (fun i => ⟨l, i, false⟩)) := by
        rw [hl2, removeFirst, if_pos (show Entry.unwrapped ⟨l, w, false⟩ = l from rfl)]
      have hrml : (Socket.removeListener s l).listeners =
          (List.range' (w + 1) c).map (fun i => ⟨l, i, false⟩) := by
        unfold Socket.removeListener
        rw [hrf]
      have hrmt : (Socket.removeListener s l).transport =
          (List.range' (w + 1) c).map (fun i => ⟨l, i, false⟩) := by
        unfold Socket.removeListener
        rw [hrf]
        show removeFirstWid s.transport (Entry.wid ⟨l, w, false⟩) = _
        rw [htr2, removeFirstWid, if_pos (show Entry.wid ⟨l, w, false⟩ = Entry.wid ⟨l, w, false⟩ from rfl)]
      have hstep : applyOps (List.replicate (k + 1) (SockOp.removeListener l)) s =
          applyOps (List.replicate k (SockOp.removeListener l)) (Socket.removeListener s l) := by
        rw [List.replicate_succ]
        rfl
      obtain ⟨h1, h2, h3, h4⟩ := ih c (w + 1) (Socket.removeListener s l) hrml hrmt
        (by omega)
      have hw : w + 1 + k = w + (k + 1) := by omega
      have hc : c - k = c + 1 - (k + 1) := by omega
      refine ⟨?_, ?_, ?_, ?_⟩
      · rw [hstep, h1, removeListener_scheme]
      · rw [hstep, h2, removeListener_key]
      · rw [hstep, h3, hw, ← hc]
      · rw [hstep, h4, hw, ← hc]

theorem emitGo_on_invokes (frames : List Frame) (m : Message) :
    ∀ (snapshot : List Entry) (s : SocketState),
      Message._decode frames s.scheme s.key = .ok (some m) →
      (∀ e ∈ snapshot, e.once = false) →
      emitGo s snapshot frames noThrow = (s, snapshot.map Entry.unwrapped, none) := by
  intro snapshot
  induction snapshot with
  | nil => intro s hdec honce; rfl
  | cons e rest ih =>
    intro s hdec honce
    have he : e.once = false := honce e (by simp)
    have hrw : runWrapper s e frames noThrow = (s, [e.unwrapped], none) := by
      unfold runWrapper
      rw [hdec]
      simp only []
      rw [if_neg (by rw [he]; simp)]
      rfl
    rw [emitGo, hrw]
    simp only []
    rw [ih s hdec (fun x hx => honce x (by simp [hx]))]
    rfl

/-- C10: with the same callback registered n times for the message event, each
`removeListener` call removes exactly the first (oldest) matching mapping entry
and unregisters only that entry's wrapper from the transport: after k ≤ n
removals the mapping and the transport both hold exactly the n - k most recent
registrations, and a delivery of a decodable message still invokes the callback
once per remaining registration — so n registrations require n removeListener
calls to clear. -/
theorem c10_duplicate_removal (scheme key : Str) (l n k : Nat) (hk : k ≤ n)
    (frames : List Frame) (m : Message)
    (hdec : Message._decode frames scheme key = .ok (some m)) :
    (applyOps (List.replicate k (SockOp.removeListener l))
        (applyOps (List.replicate n (SockOp.on l)) (initSocket scheme key))).listeners =
      (List.range' k (n - k)).map (fun i => ⟨l, i, false⟩) ∧
    (applyOps (List.replicate k (SockOp.removeListener l))
        (applyOps (List.replicate n (SockOp.on l)) (initSocket scheme key))).transport =
      (List.range' k (n - k)).map (fun i => ⟨l, i, false⟩) ∧
    (emitMessage
        (applyOps (List.replicate k (SockOp.removeListener l))
          (applyOps (List.replicate n (SockOp.on l)) (initSocket scheme key)))
        frames noThrow).2.1 = List.replicate (n - k) l := by
  obtain ⟨g1, g2, g3, g4, g5⟩ := applyOps_replicate_on l n (initSocket scheme key)
  have hl : (applyOps (List.replicate n (SockOp.on l)) (initSocket scheme key)).listeners =
      (List.range' 0 n).map (fun i => ⟨l, i, false⟩) := by
    rw [g3]
    rfl
  have htr : (applyOps (List.replicate n (SockOp.on l)) (initSocket scheme key)).transport =
      (List.range' 0 n).map (fun i => ⟨l, i, false⟩) := by
    rw [g4]
    rfl
  obtain ⟨h1, h2, h3, h4⟩ := applyOps_replicate_remove l k n 0
    (applyOps (List.replicate n (SockOp.on l)) (initSocket scheme key)) hl htr hk
  have hzk : 0 + k = k := by omega
  rw [hzk] at h3 h4
  refine ⟨h3, h4, ?_⟩
  have hsch : (applyOps (List.replicate k (SockOp.removeListener l))
      (applyOps (List.replicate n (SockOp.on l)) (initSocket scheme key))).scheme =
      scheme := by
    rw [h1, g1]
    rfl
  have hkey : (applyOps (List.replicate k (SockOp.removeListener l))
      (applyOps (List.replicate n (SockOp.on l)) (initSocket scheme key))).key = key := by
    rw [h2, g2]
    rfl
  have hdec2 : Message._decode frames
      (applyOps (List.replicate k (SockOp.removeListener l))
        (applyOps (List.replicate n (SockOp.on l)) (initSocket scheme key))).scheme
      (applyOps (List.replicate k (SockOp.removeListener l))
        (applyOps (List.replicate n (SockOp.on l)) (initSocket scheme key))).key =
      .ok (some m) := by
    rw [hsch, hkey]
    exact hdec
  have honce : ∀ e ∈ (applyOps (List.replicate k (SockOp.removeListener l))
      (applyOps (List.replicate n (SockOp.on l)) (initSocket scheme key))).transport,
      e.once = false := by
    rw [h4]
    intro e he
    obtain ⟨i, hi, hie⟩ := List.mem_map.mp he
    rw [← hie]
  rw [emitMessage, emitGo_on_invokes frames m _ _ hdec2 honce]
  show (applyOps (List.replicate k (SockOp.removeListener l))
      (applyOps (List.replicate n (SockOp.on l)) (initSocket scheme key))).transport.map
      Entry.unwrapped = _
  rw [h4, List.map_map]
  rw [show (Entry.unwrapped ∘ fun i => (⟨l, i, false⟩ : Entry)) = fun _ => l from rfl]
  rw [List.map_const']
  congr 1
  simp

/-- Witness: two registrations of the same callback, one removal — the first
registration's entry is gone, the second remains and is still invoked once by a
delivery. -/
theorem c10_duplicate_removal_witness :
    1 ≤ 2 ∧ Message._decode goodFrames [] [] = .ok (some emptyMsg) ∧
      (applyOps (List.replicate 1 (SockOp.removeListener 0))
          (applyOps (List.replicate 2 (SockOp.on 0)) (initSocket [] []))).listeners =
        [⟨0, 1, false⟩] ∧
      (emitMessage
          (applyOps (List.replicate 1 (SockOp.removeListener 0))
            (applyOps (List.replicate 2 (SockOp.on 0)) (initSocket [] [])))
          goodFrames noThrow).2.1 = [0] := by
  have h := c10_duplicate_removal [] [] 0 2 1 (by omega) goodFrames emptyMsg rfl
  exact ⟨by omega, rfl, by rw [h.1]; rfl, by rw [h.2.2]; rfl⟩

/-! ## Claim C8: once-wrapper self-unregistration -/

/-- C8 as stated is false under callback aliasing: after `on(l)` then `once(l)`
with the same callback, a delivery whose decode succeeds leaves the once-wrapper
registered — its final `removeListener(l)` removes the first mapping entry for
`l`, which is the `on` registration — and a second delivery invokes the
once-registered listener again. -/
theorem c8_once_counterexample :
    (applyOps [SockOp.on 0, SockOp.once 0, SockOp.deliver goodFrames noThrow]
      (initSocket [] [])).listeners = [⟨0, 1, true⟩] ∧
    (applyOps [SockOp.on 0, SockOp.once 0, SockOp.deliver goodFrames noThrow]
      (initSocket [] [])).transport = [⟨0, 1, true⟩] ∧
    (emitMessage
      (applyOps [SockOp.on 0, SockOp.once 0, SockOp.deliver goodFrames noThrow]
        (initSocket [] []))
      goodFrames noThrow).2.1 = [0] :=
  ⟨rfl, rfl, rfl⟩

/-- C8 amended: when the once-wrapper fires on a delivery whose decode succeeds
and its mapping entry is the first one for its callback (no earlier registration
of the same callback is present), the wrapper invokes the application listener
exactly once and then unconditionally removes its entry from the mapping and its
wrapper from the transport, whether the listener returns or throws, and any
listener error is surfaced only after that cleanup (first conjunct, at the
wrapper level).  End to end: on an otherwise-empty socket, a once listener is
invoked exactly once by the first decodable delivery — which leaves the mapping
and transport empty — and not at all by a second one (second conjunct). -/
theorem c8_once_cleanup_amended :
    (∀ (s : SocketState) (e : Entry) (frames : List Frame)
      (behavior : Nat → Option JsError) (m : Message) (rest : List Entry),
      e.once = true →
      Message._decode frames s.scheme s.key = .ok (some m) →
      removeFirst s.listeners e.unwrapped = some (e, rest) →
      runWrapper s e frames behavior =
        ({ s with listeners := rest, transport := removeFirstWid s.transport e.wid },
          [e.unwrapped], behavior e.unwrapped)) ∧
    (∀ (scheme key : Str) (l : Nat) (frames : List Frame) (m : Message)
      (behavior : Nat → Option JsError),
      Message._decode frames scheme key = .ok (some m) →
      emitMessage (Socket.once (initSocket scheme key) l) frames behavior =
        (⟨scheme, key, [], [], 1⟩, [l], behavior l) ∧
      emitMessage
          (emitMessage (Socket.once (initSocket scheme key) l) frames behavior).1
          frames behavior =
        ((emitMessage (Socket.once (initSocket scheme key) l) frames behavior).1,
          [], none)) := by
  constructor
  · intro s e frames behavior m rest honce hdec hfirst
    unfold runWrapper
    rw [hdec]
    simp only []
    rw [if_pos honce]
    have hrm : Socket.removeListener s e.unwrapped =
        { s with listeners := rest, transport := removeFirstWid s.transport e.wid } := by
      unfold Socket.removeListener
      rw [hfirst]
    cases behavior e.unwrapped with
    | none => rw [hrm]
    | some err => rw [hrm]
  · intro scheme key l frames m behavior hdec
    have hrun : runWrapper (Socket.once (initSocket scheme key) l) ⟨l, 0, true⟩ frames
        behavior = ((⟨scheme, key, [], [], 1⟩ : SocketState), [l], behavior l) := by
      unfold runWrapper
      rw [show (Socket.once (initSocket scheme key) l).scheme = scheme from rfl,
        show (Socket.once (initSocket scheme key) l).key = key from rfl, hdec]
      simp only []
      rw [if_true]
      have hrm : Socket.removeListener (Socket.once (initSocket scheme key) l) l =
          (⟨scheme, key, [], [], 1⟩ : SocketState) := by
        unfold Socket.removeListener
        rw [show (Socket.once (initSocket scheme key) l).listeners = [⟨l, 0, true⟩]
          from rfl]
        rw [removeFirst, if_pos (show Entry.unwrapped ⟨l, 0, true⟩ = l from rfl)]
        rfl
      cases hb : behavior l with
      | none => rw [hrm]
      | some err => rw [hrm]
    have hfirst : emitMessage (Socket.once (initSocket scheme key) l) frames behavior =
        ((⟨scheme, key, [], [], 1⟩ : SocketState), [l], behavior l) := by
      rw [show emitMessage (Socket.once (initSocket scheme key) l) frames behavior =
        emitGo (Socket.once (initSocket scheme key) l) [⟨l, 0, true⟩] frames behavior
        from rfl]
      rw [emitGo, hrun]
      cases hb : behavior l with
      | none => rfl
      | some err => rfl
    refine ⟨hfirst, ?_⟩
    rw [hfirst]
    rfl

/-- Witness: the wrapper-level cleanup with a throwing listener on a socket
whose mapping holds exactly that once entry, and the end-to-end single
invocation on an otherwise-empty socket. -/
theorem c8_once_cleanup_amended_witness :
    runWrapper ⟨[], [], [⟨5, 3, true⟩], [⟨5, 3, true⟩], 4⟩ ⟨5, 3, true⟩ goodFrames
        (fun _ => some jsonSyntaxError) =
      (⟨[], [], [], [], 4⟩, [5], some jsonSyntaxError) ∧
    emitMessage (Socket.once (initSocket [] []) 2) goodFrames noThrow =
      (⟨[], [], [], [], 1⟩, [2], none) :=
  ⟨c8_once_cleanup_amended.1 ⟨[], [], [⟨5, 3, true⟩], [⟨5, 3, true⟩], 4⟩ ⟨5, 3, true⟩
      goodFrames (fun _ => some jsonSyntaxError) emptyMsg [] rfl rfl rfl,
    (c8_once_cleanup_amended.2 [] [] 2 goodFrames emptyMsg noThrow rfl).1⟩
